import Mathlib

/-!
# BeautyAgent — verification of the Conversation Qualification Engine

Shallow embedding of the core of the `millouz/beautyagent` repository:
the slot extractor, budget parser and lead classifier of the snapshot
`src/unnamed/part_000` (namespace `Snapshot`), and the conversation
store, dedupe ledger and webhook orchestrator of `src/server.js`
(namespace `Server`).

Strings are modelled as `List Char`.  The JavaScript regular
expressions of the source use quantifiers only over single character
classes, so they are embedded with a small terminating backtracking
matcher (`Rx` / `mrun` / `rfind`) that mirrors the JS semantics:
leftmost match position, left-to-right alternation, greedy
quantifiers with backtracking.
-/

set_option maxRecDepth 10000

namespace BeautyAgent

/-- The apostrophe character `U+0027`, built by code point so that the
source file itself contains no stray quote characters. -/
def apos : Char := Char.ofNat 39

/-- The right single quotation mark `U+2019`. -/
def rsquo : Char := Char.ofNat 8217

/-- JS `\d` character class. -/
def isDigitC (c : Char) : Bool := decide (48 ≤ c.toNat) && decide (c.toNat ≤ 57)

/-- JS `\s` character class (the whitespace characters relevant to the
texts handled by the engine: space, tab, LF, CR, FF, VT, NBSP). -/
def isJsWs (c : Char) : Bool :=
  c = ' ' || c = Char.ofNat 9 || c = Char.ofNat 10 || c = Char.ofNat 13 ||
  c = Char.ofNat 12 || c = Char.ofNat 11 || c = Char.ofNat 160

/-- JS `\w` character class (ASCII word characters). -/
def isWordC (c : Char) : Bool :=
  (decide (97 ≤ c.toNat) && decide (c.toNat ≤ 122)) ||
  (decide (65 ≤ c.toNat) && decide (c.toNat ≤ 90)) ||
  isDigitC c || c = '_'

/-- JS `String.prototype.toLowerCase` restricted to ASCII and Latin-1
letters (the only cased characters that occur in the engine's inputs):
`A`–`Z` and `À`–`Þ` (except `×`) map down by `0x20`. -/
def jsLower (c : Char) : Char :=
  let n := c.toNat
  if 65 ≤ n && n ≤ 90 then Char.ofNat (n + 32)
  else if 192 ≤ n && n ≤ 222 && n ≠ 215 then Char.ofNat (n + 32)
  else c

/-- Numeric value of a list of ASCII digits, most significant first
(the value of a `\d+` capture). -/
def digitsVal (l : List Char) : Nat :=
  l.foldl (fun acc c => 10 * acc + (c.toNat - 48)) 0

/-- JS `String.prototype.trim`. -/
def jsTrim (l : List Char) : List Char :=
  ((l.dropWhile isJsWs).reverse.dropWhile isJsWs).reverse

/-- Replace every maximal run of whitespace by a single space
(JS `.replace(/\s+/g, " ")`). -/
def collapseWsAux : List Char → Bool → List Char
  | [], _ => []
  | c :: rest, inRun =>
    if isJsWs c then
      if inRun then collapseWsAux rest true
      else ' ' :: collapseWsAux rest true
    else c :: collapseWsAux rest false

def collapseWs (l : List Char) : List Char := collapseWsAux l false

/- JS `str.split(/\s+/)`: cut at maximal whitespace runs
(`splitWsSkip` consumes the rest of a run already being split on). -/
mutual

def splitWsAux : List Char → List Char → List (List Char)
  | [], acc => [acc.reverse]
  | c :: rest, acc =>
    if isJsWs c then acc.reverse :: splitWsSkip rest
    else splitWsAux rest (c :: acc)

def splitWsSkip : List Char → List (List Char)
  | [] => [[]]
  | c :: rest => if isJsWs c then splitWsSkip rest else splitWsAux rest [c]

end

def splitWs (l : List Char) : List (List Char) := splitWsAux l []

/-- `isPrefixL p t` : `p` is a prefix of `t`. -/
def isPrefixL : List Char → List Char → Bool
  | [], _ => true
  | _ :: _, [] => false
  | a :: as, b :: bs => a = b && isPrefixL as bs

/-- `isSubstrOf p t` : `p` occurs as a contiguous substring of `t`. -/
def isSubstrOf : List Char → List Char → Bool
  | p, [] => p.isEmpty
  | p, c :: rest => isPrefixL p (c :: rest) || isSubstrOf p rest

/-! ## A small regex engine

JS patterns used by the repository quantify only over single-character
classes, so matching terminates without general Kleene-star support.
`mrun` is continuation-passing: alternation tries the left branch
first, `opt` and `rep` are greedy and backtrack, exactly as in JS.
Captures collected by `grp` are listed inner-groups first and the full
match last (see `rfind`), which is only a presentation choice. -/

inductive Rx : Type where
  | eps : Rx
  | lit : Char → Rx
  | cls : (Char → Bool) → Rx
  | seq : Rx → Rx → Rx
  | alt : Rx → Rx → Rx
  | opt : Rx → Rx
  | rep : (Char → Bool) → Nat → Option Nat → Rx
  | grp : Rx → Rx

/-- Literal string pattern. -/
def rstr (s : List Char) : Rx := s.foldr (fun c acc => Rx.seq (Rx.lit c) acc) Rx.eps

/-- Case-insensitive literal string pattern (for `/i` patterns). -/
def ristr (s : List Char) : Rx :=
  s.foldr (fun c acc => Rx.seq (Rx.cls (fun x => jsLower x = jsLower c)) acc) Rx.eps

/-- Left-to-right alternation of a list of patterns. -/
def ralts : List Rx → Rx
  | [] => Rx.eps
  | [r] => r
  | r :: rest => Rx.alt r (ralts rest)

def wsStar : Rx := Rx.rep isJsWs 0 none
def wsPlus : Rx := Rx.rep isJsWs 1 none

/-- Greedy class repetition: try the longest feasible count first,
backtracking down to `lo`. -/
def repTry (lo : Nat) (s : List Char) (k : List Char → Option (List (List Char))) :
    Nat → Option (List (List Char))
  | 0 => if lo = 0 then k s else none
  | n + 1 =>
    if n + 1 < lo then none
    else
      match k (s.drop (n + 1)) with
      | some r => some r
      | none => repTry lo s k n

/-- Backtracking matcher.  `k` receives the input remaining after this
pattern and returns the captures produced by the rest of the match. -/
def mrun : Rx → List Char → (List Char → Option (List (List Char))) →
    Option (List (List Char))
  | Rx.eps, s, k => k s
  | Rx.lit c, s, k =>
    match s with
    | [] => none
    | c' :: s' => if c' = c then k s' else none
  | Rx.cls p, s, k =>
    match s with
    | [] => none
    | c' :: s' => if p c' then k s' else none
  | Rx.seq r₁ r₂, s, k => mrun r₁ s (fun s' => mrun r₂ s' k)
  | Rx.alt r₁ r₂, s, k =>
    match mrun r₁ s k with
    | some r => some r
    | none => mrun r₂ s k
  | Rx.opt r, s, k =>
    match mrun r s k with
    | some res => some res
    | none => k s
  | Rx.rep p lo hi, s, k =>
    let m := (s.takeWhile p).length
    let top := match hi with | none => m | some h => Nat.min m h
    repTry lo s k top
  | Rx.grp r, s, k =>
    mrun r s (fun s' => (k s').map (fun caps => s.take (s.length - s'.length) :: caps))

/-- Unanchored search: try match positions left to right, as JS
`String.prototype.match` does.  On success the returned list holds the
inner captures in order followed by the whole matched text. -/
def rfind : Rx → List Char → Option (List (List Char))
  | r, s =>
    match mrun (Rx.grp r) s (fun _ => some []) with
    | some caps => some caps
    | none =>
      match s with
      | [] => none
      | _ :: s' => rfind r s'

/-- Boolean regex test (JS `re.test(s)` for an unanchored pattern). -/
def rtest (r : Rx) (s : List Char) : Bool := (rfind r s).isSome

/-- Substring containment test: the semantics of `re.test` for a
pattern that is a plain alternation of literal strings. -/
def containsAny (t : List Char) (subs : List (List Char)) : Bool :=
  subs.any (fun p => isSubstrOf p t)

/-- `lo ≤ c.toNat ≤ hi`, as a Bool. -/
def inRange (c : Char) (lo hi : Nat) : Bool :=
  decide (lo ≤ c.toNat) && decide (c.toNat ≤ hi)

/-- Anchored match test at the start of `s`. -/
def manchor (r : Rx) (s : List Char) : Bool :=
  (mrun r s (fun _ => some [])).isSome

/-!
## `Snapshot` — the engine of `src/unnamed/part_000`

`normalize`, `euroToNumber`, `extractInfo`, `leadCategory` and
`sanitizeReply`, translated regex by regex.
-/

namespace Snapshot

/-- NFKD decomposition of the lowercase Latin-1 letters — the only
characters with a decomposition that can occur in the engine's texts
after `toLowerCase` (NFKD is the identity on ASCII, on `€` and on the
emoji used by the prompts).  Combining marks: U+0300 grave, U+0301
acute, U+0302 circumflex, U+0303 tilde, U+0308 diaeresis, U+030A ring,
U+0327 cedilla. -/
def nfkdLower (c : Char) : List Char :=
  match c.toNat with
  | 224 => ['a', Char.ofNat 768]
  | 225 => ['a', Char.ofNat 769]
  | 226 => ['a', Char.ofNat 770]
  | 227 => ['a', Char.ofNat 771]
  | 228 => ['a', Char.ofNat 776]
  | 229 => ['a', Char.ofNat 778]
  | 231 => ['c', Char.ofNat 807]
  | 232 => ['e', Char.ofNat 768]
  | 233 => ['e', Char.ofNat 769]
  | 234 => ['e', Char.ofNat 770]
  | 235 => ['e', Char.ofNat 776]
  | 236 => ['i', Char.ofNat 768]
  | 237 => ['i', Char.ofNat 769]
  | 238 => ['i', Char.ofNat 770]
  | 239 => ['i', Char.ofNat 776]
  | 241 => ['n', Char.ofNat 771]
  | 242 => ['o', Char.ofNat 768]
  | 243 => ['o', Char.ofNat 769]
  | 244 => ['o', Char.ofNat 770]
  | 245 => ['o', Char.ofNat 771]
  | 246 => ['o', Char.ofNat 776]
  | 249 => ['u', Char.ofNat 768]
  | 250 => ['u', Char.ofNat 769]
  | 251 => ['u', Char.ofNat 770]
  | 252 => ['u', Char.ofNat 776]
  | 253 => ['y', Char.ofNat 769]
  | 255 => ['y', Char.ofNat 776]
  | _ => [c]

/-- `normalize`: `(s || "").toLowerCase().normalize("NFKD").replace(/[’']/g, "'")`. -/
def normalize (s : List Char) : List Char :=
  (((s.map jsLower).map nfkdLower).flatten).map
    (fun c => if c = rsquo || c = apos then apos else c)

/-- `Math.round(a / b)` for naturals (`b > 0`): `⌊a/b + 1/2⌋ = (2a + b) / (2b)`,
exact on the rational value. -/
def roundDiv (a b : Nat) : Nat := (2 * a + b) / (2 * b)

def pow10 (n : Nat) : Nat := 10 ^ n

/-- The anchored pattern `^(\d+(?:[.,]\d+)?)k$` of `euroToNumber`:
returns the integer digits and the (possibly empty) fraction digits of
the capture. -/
def kMatch (x : List Char) : Option (List Char × List Char) :=
  let d1 := x.takeWhile isDigitC
  let rest := x.drop d1.length
  if d1.isEmpty then none
  else
    match rest with
    | ['k'] => some (d1, [])
    | c :: rest2 =>
      if c = '.' || c = ',' then
        let d2 := rest2.takeWhile isDigitC
        let rest3 := rest2.drop d2.length
        if d2.isEmpty then none
        else match rest3 with
          | ['k'] => some (d1, d2)
          | _ => none
      else none
    | _ => none

/-- The global replace `x.replace(/[€]|euros?/g, "")` (greedy `s?`,
left-to-right scan). -/
def stripEuro : List Char → List Char
  | [] => []
  | '€' :: rest => stripEuro rest
  | 'e' :: 'u' :: 'r' :: 'o' :: 's' :: rest => stripEuro rest
  | 'e' :: 'u' :: 'r' :: 'o' :: rest => stripEuro rest
  | c :: rest => c :: stripEuro rest

/-- JS `parseFloat` on the character domain reachable here (strings
over digits, `.` and `k`; no sign and no exponent can occur in the
regex captures `euroToNumber` is applied to): leading digits, an
optional fraction, parsing stops at the first other character; `NaN`
(`none`) when no digit was read.  The value is returned as an exact
numerator/denominator pair. -/
def jsParseFloat (l : List Char) : Option (Nat × Nat) :=
  let d1 := l.takeWhile isDigitC
  let rest := l.drop d1.length
  match rest with
  | '.' :: rest2 =>
    let d2 := rest2.takeWhile isDigitC
    if d1.isEmpty && d2.isEmpty then none
    else some (digitsVal d1 * pow10 d2.length + digitsVal d2, pow10 d2.length)
  | _ => if d1.isEmpty then none else some (digitsVal d1, 1)

/-- `euroToNumber` of `src/unnamed/part_000` (lines 142–150): empty
string → `null`; strip whitespace and lowercase; a `\d+([.,]\d+)?k`
shape multiplies by 1000; otherwise drop `€`/`euros`, turn commas into
dots and `Math.round(parseFloat(x))`, `null` when unparseable.
`Math.round` on the exact rational value coincides with the JS float
computation on all inputs considered in the claims. -/
def euroToNumber (s : List Char) : Option Nat :=
  if s.isEmpty then none
  else
    let x := (s.filter (fun c => !isJsWs c)).map jsLower
    match kMatch x with
    | some (d1, d2) =>
      some (roundDiv ((digitsVal d1 * pow10 d2.length + digitsVal d2) * 1000)
        (pow10 d2.length))
    | none =>
      let x2 := (stripEuro x).map (fun c => if c = ',' then '.' else c)
      match jsParseFloat x2 with
      | some (a, b) => some (roundDiv a b)
      | none => none

/-- The number class `[\d\s.,k]` of the budget patterns. -/
def budCls (c : Char) : Bool :=
  isDigitC c || isJsWs c || c = '.' || c = ',' || c = 'k'

/-- The capture `(\d[\d\s.,k]+)`. -/
def numCap : Rx := Rx.grp (Rx.seq (Rx.cls isDigitC) (Rx.rep budCls 1 none))

/-- `/(?:entre|de)\s+(\d[\d\s.,k]+)\s+(?:a|et)\s+(\d[\d\s.,k]+)/`. -/
def brangeRx : Rx :=
  Rx.seq (Rx.alt (rstr "entre".data) (rstr "de".data))
    (Rx.seq wsPlus (Rx.seq numCap (Rx.seq wsPlus
      (Rx.seq (Rx.alt (rstr "a".data) (rstr "et".data)) (Rx.seq wsPlus numCap)))))

/-- `/(?:budget|max|jusqu'?a)\s*(\d[\d\s.,k]+)/`. -/
def b1Rx : Rx :=
  Rx.seq (ralts [rstr "budget".data, rstr "max".data,
      Rx.seq (rstr "jusqu".data) (Rx.seq (Rx.opt (Rx.lit apos)) (Rx.lit 'a'))])
    (Rx.seq wsStar numCap)

/-- `/(\d[\d\s.,k]+)\s*(?:€|euros?)/`. -/
def b2Rx : Rx :=
  Rx.seq numCap (Rx.seq wsStar
    (Rx.alt (Rx.lit '€') (Rx.seq (rstr "euro".data) (Rx.opt (Rx.lit 's')))))

/-- The budget objects built by `extractInfo`: `{min,max}`, `{max}` or
`{approx}` (a JS object with the fields that were assigned). -/
structure BudgetVal where
  min : Option Nat := none
  max : Option Nat := none
  approx : Option Nat := none
deriving DecidableEq

/-- JS truthiness of an optional number (`null`, `undefined` and `0`
are falsy). -/
def optTruthy (o : Option Nat) : Bool :=
  match o with
  | some n => n != 0
  | none => false

/-- The budget paragraph of `extractInfo` (lines 171–187): the three
shapes tried as an `if / else if / else if` chain on the match results,
each guarded by the truthiness of the parsed numbers. -/
def budgetOf (t : List Char) : Option BudgetVal :=
  match rfind brangeRx t with
  | some (g1 :: g2 :: _) =>
    match euroToNumber g1, euroToNumber g2 with
    | some n1, some n2 =>
      if n1 != 0 && n2 != 0 then
        some { min := some (Nat.min n1 n2), max := some (Nat.max n1 n2) }
      else none
    | _, _ => none
  | some _ => none
  | none =>
    match rfind b1Rx t with
    | some (g1 :: _) =>
      match euroToNumber g1 with
      | some n => if n != 0 then some { max := some n } else none
      | none => none
    | some [] => none
    | none =>
      match rfind b2Rx t with
      | some (g1 :: _) =>
        match euroToNumber g1 with
        | some n => if n != 0 then some { approx := some n } else none
        | none => none
      | _ => none

/-- The intervention vocabulary regex (line 157), an alternation of
literals with the `[eé]`/`[eè]` classes expanded. -/
def interventionTest (t : List Char) : Bool :=
  containsAny t ["greffe".data, "implant".data, "fue".data, "rhinoplast".data,
    "septoplast".data, "lifting".data, "blepharo".data, "blépharo".data,
    "abdominoplast".data, "liposuc".data, "liposuccion".data, "lipofilling".data,
    "otoplast".data, "botox".data, "toxine".data, "acide hyal".data,
    "hyaluronique".data, "peeling".data, "laser".data,
    "augmentation mammaire".data, "mastopexie".data, "reduction mammaire".data,
    "réduction mammaire".data, "gynecomastie".data, "gynécomastie".data,
    "prothese mammaire".data, "prothèse mammaire".data]

/-- The anamnesis-question vocabulary (line 162). -/
def anamneseTest (t : List Char) : Bool :=
  containsAny t ["duree".data, "durée".data, "convalescence".data,
    "recuperation".data, "récuperation".data, "recupération".data,
    "récupération".data, "douleur".data, "cicat".data,
    "arrêt de travail".data, "arret de travail".data, "suivi".data,
    "processus".data, "operation".data, "opération".data]

/-- The objective vocabulary (line 167). -/
def objectifTest (t : List Char) : Bool :=
  containsAny t ["esthetique".data, "esthétique".data, "harmonie".data,
    "volume".data, "rides".data, "cicatrices".data, "correction".data,
    "deviation".data, "fonctionnel".data, "respirer".data,
    "asymetrie".data, "asymétrie".data]

/-- `/urgent|asap|semaine|ce mois|prochain mois|au plus vite/` (line 190). -/
def timing1Test (t : List Char) : Bool :=
  containsAny t ["urgent".data, "asap".data, "semaine".data, "ce mois".data,
    "prochain mois".data, "au plus vite".data]

/-- The dash class `[–-]` (en dash or hyphen). -/
def dashCls (c : Char) : Bool := c = '–' || c = '-'

/-- `/(1\s*[–-]\s*3|1 a 3|1 à 3)\s*mois/` (line 191; the capture is unused). -/
def timing2Rx : Rx :=
  Rx.seq (ralts [
      Rx.seq (Rx.lit '1') (Rx.seq wsStar (Rx.seq (Rx.cls dashCls)
        (Rx.seq wsStar (Rx.lit '3')))),
      rstr "1 a 3".data, rstr "1 à 3".data])
    (Rx.seq wsStar (rstr "mois".data))

/-- `/(3\s*[–-]\*?12|3 a 12|3 à 12)\s*mois/` (line 192; note the
escaped optional asterisk after the dash in the source). -/
def timing3Rx : Rx :=
  Rx.seq (ralts [
      Rx.seq (Rx.lit '3') (Rx.seq wsStar (Rx.seq (Rx.cls dashCls)
        (Rx.seq (Rx.opt (Rx.lit '*')) (rstr "12".data)))),
      rstr "3 a 12".data, rstr "3 à 12".data])
    (Rx.seq wsStar (rstr "mois".data))

/-- `/plus tard|apres|après|> ?12|l'an prochain|l an prochain|annee prochaine|année prochaine/` (line 193). -/
def timing4Test (t : List Char) : Bool :=
  containsAny t ["plus tard".data, "apres".data, "après".data,
    ("l".data ++ [apos] ++ "an prochain".data), "l an prochain".data,
    "annee prochaine".data, "année prochaine".data] ||
  isSubstrOf ">12".data t || isSubstrOf "> 12".data t

/-- The medical vocabulary (line 196). -/
def medicalTest (t : List Char) : Bool :=
  containsAny t ["grossesse".data, "enceinte".data, "allerg".data,
    "diabete".data, "diabète".data, "cardiaque".data,
    "thyroide".data, "thyroîde".data, "asthme".data, "anticoagulant".data,
    "immuno".data, "operation".data, "oper".data, "opér".data,
    "chirurgie".data, "cicatrice".data, "tabac".data, "fumeur".data,
    "traitement".data, "hormon".data]

/-- The name-character class `[a-zà-öø-ÿ'-]`. -/
def nameCls (c : Char) : Bool :=
  inRange c 97 122 || inRange c 224 246 || inRange c 248 255 ||
  c = apos || c = '-'

/-- `/je m'appelle\s+([a-zà-öø-ÿ'-]+\s+[a-zà-öø-ÿ'-]+)/` (line 205). -/
def name1Rx : Rx :=
  Rx.seq (rstr ("je m".data ++ [apos] ++ "appelle".data))
    (Rx.seq wsPlus (Rx.grp (Rx.seq (Rx.rep nameCls 1 none)
      (Rx.seq wsPlus (Rx.rep nameCls 1 none)))))

/-- `/moi c'?est\s+([a-zà-öø-ÿ'-]+\s+[a-zà-öø-ÿ'-]+)/` (line 206). -/
def name2Rx : Rx :=
  Rx.seq (rstr "moi c".data)
    (Rx.seq (Rx.opt (Rx.lit apos)) (Rx.seq (rstr "est".data)
      (Rx.seq wsPlus (Rx.grp (Rx.seq (Rx.rep nameCls 1 none)
        (Rx.seq wsPlus (Rx.rep nameCls 1 none)))))))

/-- `/(\d{2})\s*ans/` (line 201). -/
def ageRx : Rx :=
  Rx.seq (Rx.grp (Rx.rep isDigitC 2 (some 2))) (Rx.seq wsStar (rstr "ans".data))

/-- Email classes of `/[a-z0-9._%+-]+@[a-z0-9.-]+\.[a-z]{2,}/` (line 202). -/
def emailLocCls (c : Char) : Bool :=
  inRange c 97 122 || isDigitC c || c = '.' || c = '_' || c = '%' || c = '+' || c = '-'

def emailDomCls (c : Char) : Bool :=
  inRange c 97 122 || isDigitC c || c = '.' || c = '-'

def lowerAlpha (c : Char) : Bool := inRange c 97 122

def emailRx : Rx :=
  Rx.seq (Rx.rep emailLocCls 1 none) (Rx.seq (Rx.lit '@')
    (Rx.seq (Rx.rep emailDomCls 1 none) (Rx.seq (Rx.lit '.')
      (Rx.rep lowerAlpha 2 none))))

/-- Phone class `[\d\s.-]` of `/(\+?\d[\d\s.-]{7,}\d)/` (line 203). -/
def phoneCls (c : Char) : Bool := isDigitC c || isJsWs c || c = '.' || c = '-'

def phoneRx : Rx :=
  Rx.grp (Rx.seq (Rx.opt (Rx.lit '+')) (Rx.seq (Rx.cls isDigitC)
    (Rx.seq (Rx.rep phoneCls 7 none) (Rx.cls isDigitC))))

/-- The identity sub-object `{nom, prenom, age}`. -/
structure Identite where
  nom : Option (List Char) := none
  prenom : Option (List Char) := none
  age : Option Nat := none
deriving DecidableEq

/-- The preferred-contact sub-object `{mode, valeur}`. -/
structure ContactPref where
  mode : List Char
  valeur : Option (List Char) := none
deriving DecidableEq

/-- The per-conversation fact sheet `conv.profile` mutated by
`extractInfo`. -/
structure Profile where
  intervention : Option (List Char) := none
  anamneseDone : Bool := false
  objectif : Option (List Char) := none
  budget : Option BudgetVal := none
  timing : Option (List Char) := none
  medical : Option (List Char) := none
  identite : Option Identite := none
  contact : Option ContactPref := none
deriving DecidableEq

/-- JS `??=`: assign only when the slot is still null/undefined. -/
def coalesce {α : Type} (o : Option α) (v : α) : Option α :=
  match o with
  | some x => some x
  | none => some v

/-- `(\d{2})\s*ans` age capture, parsed with `parseInt(·, 10)`. -/
def ageOf (t : List Char) : Option Nat :=
  match rfind ageRx t with
  | some (g1 :: _) => some (digitsVal g1)
  | _ => none

/-- `(name1?.[1] || name2?.[1] || "").trim()` (line 207). -/
def fullNameOf (t : List Char) : List Char :=
  let n1 := match rfind name1Rx t with | some (g1 :: _) => g1 | _ => []
  let n2 := match rfind name2Rx t with | some (g1 :: _) => g1 | _ => []
  jsTrim (if n1.isEmpty then n2 else n1)

/-- The identity paragraph of `extractInfo` (lines 204–218): on a first
sighting the full name is split (`nom` = last token, `prenom` = the
preceding tokens); once `identite` exists only a falsy `age` may be
overwritten (`!profile.identite.age` — JS truthiness, so `null` and the
number `0` both admit a later write). -/
def updIdentite (t : List Char) (p : Profile) : Profile :=
  let age := ageOf t
  match p.identite with
  | none =>
    let full := fullNameOf t
    if !full.isEmpty || age.isSome then
      let parts := splitWs full
      let idn : Identite :=
        { nom := if parts.length > 1 then parts.getLast? else none
          prenom :=
            if parts.length > 1 then some (List.intercalate [' '] parts.dropLast)
            else (if full.isEmpty then none else some full)
          age := age }
      { p with identite := some idn }
    else p
  | some idn =>
    match age with
    | some a =>
      if optTruthy idn.age then p
      else { p with identite := some { idn with age := some a } }
    | none => p

/-- `email?.[0]` — the full email match. -/
def emailOf (t : List Char) : Option (List Char) :=
  match rfind emailRx t with
  | some (full :: _) => some full
  | _ => none

/-- `phone?.[1]` — the phone capture. -/
def phoneOf (t : List Char) : Option (List Char) :=
  match rfind phoneRx t with
  | some (g1 :: _) => some g1
  | _ => none

/-- The preferred-contact paragraph (lines 221–223): email, then
phone (whitespace collapsed), then an explicit WhatsApp mention, each
only when no preference is recorded yet. -/
def updContact (t : List Char) (p : Profile) : Profile :=
  let p :=
    match emailOf t with
    | some e =>
      if p.contact.isNone then
        { p with contact := some { mode := "email".data, valeur := some e } }
      else p
    | none => p
  let p :=
    match phoneOf t with
    | some ph =>
      if p.contact.isNone then
        { p with contact := some { mode := "téléphone".data, valeur := some (collapseWs ph) } }
      else p
    | none => p
  if isSubstrOf "whatsapp".data t && p.contact.isNone then
    { p with contact := some { mode := "WhatsApp".data, valeur := none } }
  else p

/-- `profile.intervention ??= raw` guarded by the vocabulary test (lines 157–159). -/
def updIntervention (raw t : List Char) (p : Profile) : Profile :=
  if interventionTest t then { p with intervention := coalesce p.intervention raw } else p

/-- `profile.anamneseDone = true` when a process question is detected (lines 162–164). -/
def updAnamnese (t : List Char) (p : Profile) : Profile :=
  if anamneseTest t then { p with anamneseDone := true } else p

/-- `profile.objectif ??= raw` (lines 167–169). -/
def updObjectif (raw t : List Char) (p : Profile) : Profile :=
  if objectifTest t then { p with objectif := coalesce p.objectif raw } else p

/-- `if (b && !profile.budget) profile.budget = b` (line 187). -/
def updBudget (t : List Char) (p : Profile) : Profile :=
  match budgetOf t with
  | some b => if p.budget.isNone then { p with budget := some b } else p
  | none => p

/-- The four sequential `profile.timing ??=` updates (lines 190–193). -/
def updTiming (t : List Char) (p : Profile) : Profile :=
  let p := if timing1Test t then { p with timing := coalesce p.timing "urgent".data } else p
  let p := if rtest timing2Rx t then { p with timing := coalesce p.timing "1–3 mois".data } else p
  let p := if rtest timing3Rx t then { p with timing := coalesce p.timing "3–12 mois".data } else p
  if timing4Test t then { p with timing := coalesce p.timing "plus tard".data } else p

/-- `profile.medical ??= raw` (lines 196–198). -/
def updMedical (raw t : List Char) (p : Profile) : Profile :=
  if medicalTest t then { p with medical := coalesce p.medical raw } else p

/-- `extractInfo(text, profile)` of `src/unnamed/part_000` (lines
152–224), with the source's update order.  `raw` is the original
message (stored verbatim in the text slots), `t` its normalization. -/
def extractInfo (raw : List Char) (p : Profile) : Profile :=
  let t := normalize raw
  updContact t (updIdentite t (updMedical raw t (updTiming t (updBudget t
    (updObjectif raw t (updAnamnese t (updIntervention raw t p)))))))

/-- A sequence of extraction calls, oldest text first. -/
def extractSeq (ts : List (List Char)) (p : Profile) : Profile :=
  ts.foldl (fun q t => extractInfo t q) p

/-- The lead categories (`CHAUD`/`TIEDE`/`FROID` in the source). -/
inductive Lead : Type where
  | chaud : Lead
  | tiede : Lead
  | froid : Lead
deriving DecidableEq

/-- Truthiness of `p.budget && (p.budget.max || p.budget.approx || p.budget.min)`. -/
def budTruthy (p : Profile) : Bool :=
  match p.budget with
  | none => false
  | some b => optTruthy b.max || optTruthy b.approx || optTruthy b.min

/-- `leadCategory` of `src/unnamed/part_000` (lines 226–231): an
ordered rule list, first match wins. -/
def leadCategory (p : Profile) : Lead :=
  if budTruthy p && (p.timing == some "urgent".data || p.timing == some "1–3 mois".data) then
    Lead.chaud
  else if !budTruthy p || p.timing == some "3–12 mois".data then
    Lead.tiede
  else
    Lead.froid

/-- The class `[eé]` used by the lead-sheet marker. -/
def eCls (c : Char) : Bool := c = 'e' || c = 'é'

/-- `\s*fiche\s*lead` — the tail of the first marker alternative. -/
def ficheLeadRx : Rx :=
  Rx.seq wsStar (Rx.seq (rstr "fiche".data) (Rx.seq wsStar (rstr "lead".data)))

/-- The line-anchored alternatives of the lead-sheet marker
(`^…fiche…lead`, `^nom:`, `^pr[ée]nom:`, `^budget:`, `^timing:`,
`^infos? m[ée]dicales?:`, `^contact:`), lowercase because the input is
lowercased for the `/i` flag. -/
def lineAltRx : Rx :=
  ralts [
    ficheLeadRx,
    Rx.seq (rstr "nom".data) (Rx.seq wsStar (Rx.lit ':')),
    Rx.seq (rstr "pr".data) (Rx.seq (Rx.cls eCls)
      (Rx.seq (rstr "nom".data) (Rx.seq wsStar (Rx.lit ':')))),
    Rx.seq (rstr "budget".data) (Rx.seq wsStar (Rx.lit ':')),
    Rx.seq (rstr "timing".data) (Rx.seq wsStar (Rx.lit ':')),
    Rx.seq (rstr "info".data) (Rx.seq (Rx.opt (Rx.lit 's'))
      (Rx.seq wsStar (Rx.seq (Rx.lit 'm') (Rx.seq (Rx.cls eCls)
        (Rx.seq (rstr "dicale".data) (Rx.seq (Rx.opt (Rx.lit 's'))
          (Rx.seq wsStar (Rx.lit ':')))))))),
    Rx.seq (rstr "contact".data) (Rx.seq wsStar (Rx.lit ':'))]

/-- Scan for the marker: line-start alternatives at position 0 or
after a line terminator (`/m`), and the `📋\s*fiche\s*lead` alternative
at any position. -/
def markerScan : List Char → Bool → Bool
  | [], _ => false
  | c :: rest, atLS =>
    (atLS && manchor lineAltRx (c :: rest)) ||
    (c = '📋' && manchor ficheLeadRx rest) ||
    markerScan rest (c = Char.ofNat 10 || c = Char.ofNat 13)

/-- `marker.test(s)` for the `/im` lead-sheet marker of `sanitizeReply`
(lines 235–236); the input is lowercased for the `/i` flag. -/
def markerTest (s : List Char) : Bool :=
  markerScan (s.map jsLower) true

/-- The fixed handoff message returned when the marker fires. -/
def sanitizeHandoff : List Char :=
  "Merci, je garde vos informations en interne. Préférez-vous que je réponde d".data
    ++ [rsquo] ++ "abord à vos questions, ou que je regarde des disponibilités 📅 ?".data

/-- `sanitizeReply` (lines 234–241): return the reply unchanged when
the marker is absent, otherwise the fixed handoff message (the two
intermediate `replace` assignments in the source are dead: the branch
always ends in `return` of the fixed string). -/
def sanitizeReply (s : List Char) : List Char :=
  if markerTest s then sanitizeHandoff else s

/-- The history truncation of the `part_000` webhook handler (lines
451–452): `conv.messages.push(m); if (conv.messages.length > 40)
conv.messages = conv.messages.slice(-20);`. -/
def appendMessage40 {α : Type} (msgs : List α) (m : α) : List α :=
  let h := msgs ++ [m]
  if h.length > 40 then h.drop (h.length - 20) else h

/-- The history truncation of the `part_004` webhook handler (lines
465–466): threshold 20, retained 10. -/
def appendMessage20 {α : Type} (msgs : List α) (m : α) : List α :=
  let h := msgs ++ [m]
  if h.length > 20 then h.drop (h.length - 10) else h

end Snapshot

/-!
## `Server` — the engine of `src/server.js`

The dedupe ledger (`pruneProcessed` / `alreadyHandled`), the
conversation store (`getConv` / `push`), the slot extractor
(`extractSlots`), the reply shaper (`enforceStructure`) and the
webhook orchestrator, with the store as explicit state.  The JS
objects `db.conversations` and `db.processed` are modelled as
association lists (unique keys, insertion order); the two external
network calls (OpenAI generation and summary) are oracles
`gen sum : Option (List Char)` (`none` = the call failed), and the
side effects of a turn are returned as an ordered event trace. -/

namespace Server

/-- `MAX_TURNS = 24` (line 110). -/
def MAX_TURNS : Nat := 24

/-- `TTL_MS = 6 * 60 * 60 * 1000` (line 111, conversation expiry). -/
def TTL_MS : Nat := 6 * 60 * 60 * 1000

/-- Dedupe-ledger TTL `24 * 60 * 60 * 1000` (line 80). -/
def TTL : Nat := 24 * 60 * 60 * 1000

/-- First-match association-list lookup (JS object property read). -/
def lookupA {α : Type} : List (List Char × α) → List Char → Option α
  | [], _ => none
  | (k, v) :: rest, key => if k = key then some v else lookupA rest key

/-- JS object property write: overwrite in place when the key exists,
otherwise append (insertion order preserved). -/
def insertA {α : Type} : List (List Char × α) → List Char → α → List (List Char × α)
  | [], key, v => [(key, v)]
  | (k, w) :: rest, key, v =>
    if k = key then (k, v) :: rest else (k, w) :: insertA rest key v

/-- One turn of a conversation history. -/
inductive Role : Type where
  | user : Role
  | assistant : Role
deriving DecidableEq

structure Turn where
  role : Role
  content : List Char
deriving DecidableEq

/-- The per-sender slot object filled by `extractSlots`. -/
structure Slots where
  intervention : Option (List Char) := none
  budget : Option (List Char) := none
  delai : Option (List Char) := none
  nom : Option (List Char) := none
deriving DecidableEq

/-- A conversation record (line 117).  `updated_at` is the
`Date.now()` timestamp of the last mutation; the `(c.updated_at || 0)`
read is modelled by the plain `Nat` value (`0` behaves identically). -/
structure Conv where
  history : List Turn := []
  slots : Slots := {}
  greeted : Bool := false
  summary : List Char := []
  updated_at : Nat := 0
deriving DecidableEq

/-- A client row, reduced to the fields the webhook reads (the client
resolution only chooses credentials and the prompt fed to the external
generation call, which is abstracted by the `gen` oracle). -/
structure Client where
  status : List Char
  phone_number_id : List Char
deriving DecidableEq

/-- The JSON-file store `db.json`.  The JS objects are modelled with
plain dictionary semantics: exotic property-key behaviour of
JavaScript objects (keys inherited from `Object.prototype`) is outside
the scope of this embedding. -/
structure DB where
  clients : List Client := []
  conversations : List (List Char × Conv) := []
  processed : List (List Char × Nat) := []
deriving DecidableEq

/-- JS truthiness of `db.processed[messageId]` (absent or `0` is falsy). -/
def processedTruthy (l : List (List Char × Nat)) (key : List Char) : Bool :=
  match lookupA l key with
  | some v => v != 0
  | none => false

/-- `pruneProcessed` (lines 78–84): delete every entry with
`now - v > TTL` (`Nat` subtraction truncates at `0` exactly as the JS
comparison behaves for future timestamps). -/
def pruneProcessed (now : Nat) (l : List (List Char × Nat)) : List (List Char × Nat) :=
  l.filter (fun kv => !decide (now - kv.2 > TTL))

/-- `alreadyHandled(db, messageId)` (lines 85–91): an empty id is
never seen; a present (truthy) id short-circuits to `true` with no
mutation; otherwise the id is recorded at `now` and the ledger pruned,
returning `false`. -/
def alreadyHandled (now : Nat) (db : DB) (messageId : List Char) : Bool × DB :=
  if messageId.isEmpty then (false, db)
  else if processedTruthy db.processed messageId then (true, db)
  else
    (false, { db with processed := pruneProcessed now (insertA db.processed messageId now) })

/-- `getConv(db, id)` (lines 113–121): a missing or expired record is
replaced by a fresh one, installed in the store. -/
def freshConv (now : Nat) : Conv :=
  { history := [], slots := {}, greeted := false, summary := [], updated_at := now }

def getConv (now : Nat) (db : DB) (id : List Char) : Conv × DB :=
  match lookupA db.conversations id with
  | some c =>
    if now - c.updated_at > TTL_MS then
      (freshConv now, { db with conversations := insertA db.conversations id (freshConv now) })
    else (c, db)
  | none =>
    (freshConv now, { db with conversations := insertA db.conversations id (freshConv now) })

/-- `push(conv, role, content)` (lines 122–126): append, truncate to
the last `MAX_TURNS` turns (`slice(-MAX_TURNS)`), refresh `updated_at`. -/
def push (now : Nat) (conv : Conv) (role : Role) (content : List Char) : Conv :=
  let h := conv.history ++ [{ role := role, content := content }]
  let h := if h.length > MAX_TURNS then h.drop (h.length - MAX_TURNS) else h
  { conv with history := h, updated_at := now }

/-- `/(greffe capillaire|greffe|rhinoplastie|liposuccion|bbl|lifting|implants mammaires|botox|acide hyaluronique|filler)/` (line 129), with its capture. -/
def mIntervRx : Rx :=
  Rx.grp (ralts [rstr "greffe capillaire".data, rstr "greffe".data,
    rstr "rhinoplastie".data, rstr "liposuccion".data, rstr "bbl".data,
    rstr "lifting".data, rstr "implants mammaires".data, rstr "botox".data,
    rstr "acide hyaluronique".data, rstr "filler".data])

/-- `/(\d[\d\s]{2,})\s*€?/` (line 133). -/
def mBudgetRx : Rx :=
  Rx.seq (Rx.grp (Rx.seq (Rx.cls isDigitC)
      (Rx.rep (fun c => isDigitC c || isJsWs c) 2 none)))
    (Rx.seq wsStar (Rx.opt (Rx.lit '€')))

/-- `/(\d+\s*(jours?|semaines?|mois?)|urgent|dès que possible|1-3 mois|3-12 mois)/`
(line 135; the inner unit group is unused and dropped). -/
def mDelaiRx : Rx :=
  Rx.grp (ralts [
    Rx.seq (Rx.rep isDigitC 1 none) (Rx.seq wsStar (ralts [
      Rx.seq (rstr "jour".data) (Rx.opt (Rx.lit 's')),
      Rx.seq (rstr "semaine".data) (Rx.opt (Rx.lit 's')),
      Rx.seq (rstr "moi".data) (Rx.opt (Rx.lit 's'))])),
    rstr "urgent".data,
    rstr "dès que possible".data,
    rstr "1-3 mois".data,
    rstr "3-12 mois".data])

/-- The name class `[A-Za-zÀ-ÖØ-öø-ÿ' -]` of line 137. -/
def srvNameCls (c : Char) : Bool :=
  inRange c 65 90 || inRange c 97 122 || inRange c 192 214 ||
  inRange c 216 246 || inRange c 248 255 || c = apos || c = ' ' || c = '-'

/-- `/je m'?appelle\s+([A-Za-zÀ-ÖØ-öø-ÿ' -]{2,30})/i` (line 137),
applied to the raw (non-lowercased) text with case-insensitive
literals. -/
def mNomRx : Rx :=
  Rx.seq (ristr "je m".data) (Rx.seq (Rx.opt (Rx.lit apos))
    (Rx.seq (ristr "appelle".data) (Rx.seq wsPlus
      (Rx.grp (Rx.rep srvNameCls 2 (some 30))))))

/-- JS truthiness of an optional string (`undefined` and `""` are
falsy): the value of a guard `slots.x` on a string-valued slot. -/
def strTruthy (o : Option (List Char)) : Bool :=
  match o with
  | some s => !s.isEmpty
  | none => false

/-- `if (mInterv && !slots.intervention) slots.intervention = mInterv[1]` (line 132);
`!slots.intervention` is JS truthiness, so an empty-string slot is overwritten. -/
def updSlotIntervention (t : List Char) (slots : Slots) : Slots :=
  match rfind mIntervRx t with
  | some (g1 :: _) =>
    if strTruthy slots.intervention then slots else { slots with intervention := some g1 }
  | _ => slots

/-- `if (mBudget && !slots.budget) slots.budget = mBudget[1].replace(/\s/g, "")` (line 134). -/
def updSlotBudget (t : List Char) (slots : Slots) : Slots :=
  match rfind mBudgetRx t with
  | some (g1 :: _) =>
    if strTruthy slots.budget then slots
    else { slots with budget := some (g1.filter (fun c => !isJsWs c)) }
  | _ => slots

/-- `if (mDelai && !slots.delai) slots.delai = mDelai[1]` (line 136). -/
def updSlotDelai (t : List Char) (slots : Slots) : Slots :=
  match rfind mDelaiRx t with
  | some (g1 :: _) =>
    if strTruthy slots.delai then slots else { slots with delai := some g1 }
  | _ => slots

/-- `if (mNom && !slots.nom) slots.nom = mNom[1].trim()` (line 138;
matched on the raw, non-lowercased text).  The stored value is the
trimmed capture, which can itself be the empty string (the `{2,30}`
class admits blanks), and an empty-string `nom` is falsy, hence
overwritable. -/
def updSlotNom (text : List Char) (slots : Slots) : Slots :=
  match rfind mNomRx text with
  | some (g1 :: _) =>
    if strTruthy slots.nom then slots else { slots with nom := some (jsTrim g1) }
  | _ => slots

/-- `extractSlots(slots, text)` (lines 127–140): four first-write-wins
slot updates in source order. -/
def extractSlots (slots : Slots) (text : List Char) : Slots :=
  let t := text.map jsLower
  updSlotNom text (updSlotDelai t (updSlotBudget t (updSlotIntervention t slots)))

/-- A sequence of `extractSlots` calls, oldest text first. -/
def extractSlotsSeq (ts : List (List Char)) (slots : Slots) : Slots :=
  ts.foldl extractSlots slots

/-- `/^bon[j]?our\b/i` (line 287): `bonjour` or `bonour` at the start
of the text, followed by a non-word character or the end. -/
def greetingTest (text : List Char) : Bool :=
  let t := text.map jsLower
  let wb : List Char → Bool := fun rest =>
    match rest with
    | [] => true
    | c :: _ => !isWordC c
  (isPrefixL "bonjour".data t && wb (t.drop 7)) ||
  (isPrefixL "bonour".data t && wb (t.drop 6))

/-- `out.split(/\n+/).join(" ")` — every maximal newline run becomes a
single space. -/
def flattenNlAux : List Char → Bool → List Char
  | [], _ => []
  | c :: rest, inRun =>
    if c = Char.ofNat 10 then
      if inRun then flattenNlAux rest true
      else ' ' :: flattenNlAux rest true
    else c :: flattenNlAux rest false

def flattenNl (l : List Char) : List Char := flattenNlAux l false

/-- Sentence-final punctuation of `/(?<=[.?!])\s+/`. -/
def isSentPunct (c : Char) : Bool := c = '.' || c = '?' || c = '!'

/-- `str.split(/(?<=[.?!])\s+/)`: cut at every maximal whitespace run
immediately preceded by `.`, `?` or `!`.  `acc` is the current piece
(reversed), `prevPunct` whether the previous character was
sentence-final, `skip` whether we are inside the whitespace run being
split on. -/
def sentAux : List Char → List Char → Bool → Bool → List (List Char)
  | [], acc, _, _ => [acc.reverse]
  | c :: rest, acc, prevPunct, skip =>
    if skip then
      if isJsWs c then sentAux rest acc false true
      else sentAux rest [c] (isSentPunct c) false
    else if prevPunct && isJsWs c then
      acc.reverse :: sentAux rest [] false true
    else sentAux rest (c :: acc) (isSentPunct c) false

def splitSentences (l : List Char) : List (List Char) := sentAux l [] false false

/-- `enforceStructure` (lines 327–335): flatten newlines, split into
sentences, drop empties (`filter(Boolean)`), keep the first three,
re-join with single spaces. -/
def enforceStructure (out : List Char) : List Char :=
  List.intercalate [' ']
    (((splitSentences (flattenNl out)).filter (fun p => !p.isEmpty)).take 3)

/-- `adjFree p` : the piece `p` holds no sentence-split point, i.e. no
whitespace character directly preceded by `.`, `?` or `!` (true of
every piece produced by `splitSentences`, and the reason re-splitting
a rejoined prefix cannot create new pieces). -/
def adjFree : List Char → Bool
  | [] => true
  | [_] => true
  | a :: b :: rest => !(isSentPunct a && isJsWs b) && adjFree (b :: rest)

/-- Number of sentence splits performed on an input, from a given
splitter state — `splitSentences` produces one more piece than this
(see `sentAux_length`). -/
def sentCount : List Char → Bool → Bool → Nat
  | [], _, _ => 0
  | c :: rest, prevPunct, skip =>
    if skip then
      if isJsWs c then sentCount rest false true
      else sentCount rest (isSentPunct c) false
    else if prevPunct && isJsWs c then 1 + sentCount rest false true
    else sentCount rest (isSentPunct c) false

/-- The generated reply (line 308 and 320–321): the model text when
the call succeeded with non-empty content, otherwise the fixed default
`"Merci pour votre message."`. -/
def defaultReply : List Char := "Merci pour votre message.".data

def genReply (gen : Option (List Char)) : List Char :=
  match gen with
  | some s => if s.isEmpty then defaultReply else s
  | none => defaultReply

/-- `conv.summary = sumJson…content || conv.summary || ""` (line 356),
inside a `try` whose failure (`none`) leaves the summary unchanged. -/
def applySummary (sum : Option (List Char)) (conv : Conv) : Conv :=
  match sum with
  | some s => if !s.isEmpty then { conv with summary := s } else conv
  | none => conv

/-- The conversation mutations of one successfully deduped turn
(lines 286–357): slot extraction, greeting flag, user push, reply
generation and shaping, assistant push, summary refresh.  Returns the
mutated record and the shaped reply. -/
def applyTurn (now : Nat) (text : List Char) (gen sum : Option (List Char))
    (conv : Conv) : Conv × List Char :=
  let conv := { conv with slots := extractSlots conv.slots text }
  let conv := if greetingTest text && !conv.greeted then { conv with greeted := true } else conv
  let conv := push now conv Role.user text
  let reply := enforceStructure (genReply gen)
  let conv := push now conv Role.assistant reply
  let conv := applySummary sum conv
  (conv, reply)

/-- The externally visible side effects of a webhook turn, in
chronological order: the two OpenAI calls, the `writeDB` full-store
save (with the saved state), and the WhatsApp delivery attempt. -/
inductive Ev : Type where
  | genCall : Ev
  | sumCall : Ev
  | save : DB → Ev
  | send : List Char → Ev
deriving DecidableEq

/-- Terminal states of a turn. -/
inductive Wres : Type where
  | incomplete : Wres
  | duplicate : Wres
  | ok : Wres
deriving DecidableEq

/-- The inbound text message, reduced to the four primitives the
handler reads (`change.metadata.phone_number_id`, `msg.from`,
`msg.text.body`, `msg.id`). -/
structure Inbound where
  phoneNumberId : List Char
  sender : List Char
  text : List Char
  messageId : List Char
deriving DecidableEq

/-- `app.post("/webhook")` (lines 242–375) for an inbound text
message: trim, completeness check, dedupe gate (a duplicate saves the
store and stops), conversation load, turn application, store save,
delivery.  The generation and summary calls are the `gen`/`sum`
oracles; the composed system prompt only feeds those calls and is not
modelled. -/
def webhookStep (now : Nat) (db0 : DB) (inb : Inbound)
    (gen sum : Option (List Char)) : DB × List Ev × Wres :=
  let phoneNumberId := jsTrim inb.phoneNumberId
  let text := jsTrim inb.text
  if inb.sender.isEmpty || text.isEmpty || phoneNumberId.isEmpty then
    (db0, [], Wres.incomplete)
  else
    match alreadyHandled now db0 inb.messageId with
    | (true, db) => (db, [Ev.save db], Wres.duplicate)
    | (false, db) =>
      let conversationId := phoneNumberId ++ '_' :: inb.sender
      let (conv, db) := getConv now db conversationId
      let (conv, reply) := applyTurn now text gen sum conv
      let db := { db with conversations := insertA db.conversations conversationId conv }
      (db, [Ev.genCall, Ev.sumCall, Ev.save db, Ev.send reply], Wres.ok)

/-- Number of delivery attempts in an event trace. -/
def countSends (evs : List Ev) : Nat :=
  (evs.filter (fun e => match e with | Ev.send _ => true | _ => false)).length

/-- Number of model (generation/summary) calls in an event trace. -/
def countModelCalls (evs : List Ev) : Nat :=
  (evs.filter (fun e => match e with | Ev.genCall => true | Ev.sumCall => true | _ => false)).length

/-- Number of user turns in a history. -/
def countUserTurns (h : List Turn) : Nat :=
  (h.filter (fun t => match t.role with | Role.user => true | _ => false)).length

/-- The conversation key `phoneNumberId_from` (line 282). -/
def convKey (inb : Inbound) : List Char :=
  jsTrim inb.phoneNumberId ++ '_' :: inb.sender

/-- A sample inbound text message, used by the witnesses. -/
def sampleInbound : Inbound :=
  { phoneNumberId := "e".data, sender := "s".data,
    text := "Salut. Ca va. Bien. Merci.".data, messageId := "m".data }

/-- A sample generation-oracle reply, used by the witnesses. -/
def sampleGen : Option (List Char) := some "Un. Deux. Trois. Quatre.".data

end Server


/-!
## Helper lemmas

Association-list facts for the ledger and the store, frame and
first-write-wins lemmas for each slot updater.
-/

namespace Server

theorem lookupA_insertA_self {α : Type} (l : List (List Char × α)) (k : List Char) (v : α) :
    lookupA (insertA l k v) k = some v := by
  induction l with
  | nil => simp [insertA, lookupA]
  | cons kv rest ih =>
    obtain ⟨k2, w⟩ := kv
    by_cases hk : k2 = k <;> simp [insertA, lookupA, hk, ih]

theorem lookupA_insertA_ne {α : Type} (l : List (List Char × α)) (key k : List Char) (v : α)
    (hk : k ≠ key) : lookupA (insertA l key v) k = lookupA l k := by
  have hk2 : ¬key = k := fun h => hk h.symm
  induction l with
  | nil => simp [insertA, lookupA, hk2]
  | cons kv rest ih =>
    obtain ⟨k2, w⟩ := kv
    by_cases hkey : k2 = key
    · subst hkey
      simp [insertA, lookupA, hk2]
    · simp [insertA, lookupA, hkey, ih]

theorem lookupA_filter {α : Type} (p : List Char × α → Bool) (l : List (List Char × α))
    (k : List Char) (v : α) (h : lookupA l k = some v) (hp : p (k, v) = true) :
    lookupA (l.filter p) k = some v := by
  induction l with
  | nil => simp [lookupA] at h
  | cons kv rest ih =>
    obtain ⟨k2, w⟩ := kv
    by_cases hk : k2 = k
    · subst hk
      simp [lookupA] at h
      subst h
      simp [List.filter, hp, lookupA]
    · simp [lookupA, hk] at h
      rcases hpk : p (k2, w) with _ | _ <;> simp [List.filter, hpk, lookupA, hk, ih h]

theorem pruneProcessed_lookup (now : Nat) (l : List (List Char × Nat)) (k : List Char) (v : Nat)
    (h : lookupA l k = some v) (hfresh : now - v ≤ TTL) :
    lookupA (pruneProcessed now l) k = some v := by
  apply lookupA_filter _ _ _ _ h
  simp [hfresh, Nat.not_lt_of_le hfresh]

theorem alreadyHandled_record (now : Nat) (db : DB) (mid : List Char)
    (hm : mid.isEmpty = false) (hnew : processedTruthy db.processed mid = false) :
    alreadyHandled now db mid =
      (false, { db with processed := pruneProcessed now (insertA db.processed mid now) }) := by
  simp [alreadyHandled, hm, hnew]

theorem alreadyHandled_dup (now : Nat) (db : DB) (mid : List Char)
    (hm : mid.isEmpty = false) (hdup : processedTruthy db.processed mid = true) :
    alreadyHandled now db mid = (true, db) := by
  simp [alreadyHandled, hm, hdup]

theorem recorded_lookup (now : Nat) (l : List (List Char × Nat)) (mid : List Char) :
    lookupA (pruneProcessed now (insertA l mid now)) mid = some now := by
  apply pruneProcessed_lookup _ _ _ _ (lookupA_insertA_self l mid now)
  simp

end Server

namespace Snapshot

theorem updIntervention_objectif_frame (raw : List Char) (t : List Char) (p : Profile) :
    (updIntervention raw t p).objectif = p.objectif := by
  simp only [updIntervention]
  repeat' split
  all_goals rfl

theorem updIntervention_budget_frame (raw : List Char) (t : List Char) (p : Profile) :
    (updIntervention raw t p).budget = p.budget := by
  simp only [updIntervention]
  repeat' split
  all_goals rfl

theorem updIntervention_timing_frame (raw : List Char) (t : List Char) (p : Profile) :
    (updIntervention raw t p).timing = p.timing := by
  simp only [updIntervention]
  repeat' split
  all_goals rfl

theorem updIntervention_medical_frame (raw : List Char) (t : List Char) (p : Profile) :
    (updIntervention raw t p).medical = p.medical := by
  simp only [updIntervention]
  repeat' split
  all_goals rfl

theorem updIntervention_identite_frame (raw : List Char) (t : List Char) (p : Profile) :
    (updIntervention raw t p).identite = p.identite := by
  simp only [updIntervention]
  repeat' split
  all_goals rfl

theorem updIntervention_contact_frame (raw : List Char) (t : List Char) (p : Profile) :
    (updIntervention raw t p).contact = p.contact := by
  simp only [updIntervention]
  repeat' split
  all_goals rfl

theorem updAnamnese_intervention_frame (t : List Char) (p : Profile) :
    (updAnamnese t p).intervention = p.intervention := by
  simp only [updAnamnese]
  repeat' split
  all_goals rfl

theorem updAnamnese_objectif_frame (t : List Char) (p : Profile) :
    (updAnamnese t p).objectif = p.objectif := by
  simp only [updAnamnese]
  repeat' split
  all_goals rfl

theorem updAnamnese_budget_frame (t : List Char) (p : Profile) :
    (updAnamnese t p).budget = p.budget := by
  simp only [updAnamnese]
  repeat' split
  all_goals rfl

theorem updAnamnese_timing_frame (t : List Char) (p : Profile) :
    (updAnamnese t p).timing = p.timing := by
  simp only [updAnamnese]
  repeat' split
  all_goals rfl

theorem updAnamnese_medical_frame (t : List Char) (p : Profile) :
    (updAnamnese t p).medical = p.medical := by
  simp only [updAnamnese]
  repeat' split
  all_goals rfl

theorem updAnamnese_identite_frame (t : List Char) (p : Profile) :
    (updAnamnese t p).identite = p.identite := by
  simp only [updAnamnese]
  repeat' split
  all_goals rfl

theorem updAnamnese_contact_frame (t : List Char) (p : Profile) :
    (updAnamnese t p).contact = p.contact := by
  simp only [updAnamnese]
  repeat' split
  all_goals rfl

theorem updObjectif_intervention_frame (raw : List Char) (t : List Char) (p : Profile) :
    (updObjectif raw t p).intervention = p.intervention := by
  simp only [updObjectif]
  repeat' split
  all_goals rfl

theorem updObjectif_budget_frame (raw : List Char) (t : List Char) (p : Profile) :
    (updObjectif raw t p).budget = p.budget := by
  simp only [updObjectif]
  repeat' split
  all_goals rfl

theorem updObjectif_timing_frame (raw : List Char) (t : List Char) (p : Profile) :
    (updObjectif raw t p).timing = p.timing := by
  simp only [updObjectif]
  repeat' split
  all_goals rfl

theorem updObjectif_medical_frame (raw : List Char) (t : List Char) (p : Profile) :
    (updObjectif raw t p).medical = p.medical := by
  simp only [updObjectif]
  repeat' split
  all_goals rfl

theorem updObjectif_identite_frame (raw : List Char) (t : List Char) (p : Profile) :
    (updObjectif raw t p).identite = p.identite := by
  simp only [updObjectif]
  repeat' split
  all_goals rfl

theorem updObjectif_contact_frame (raw : List Char) (t : List Char) (p : Profile) :
    (updObjectif raw t p).contact = p.contact := by
  simp only [updObjectif]
  repeat' split
  all_goals rfl

theorem updBudget_intervention_frame (t : List Char) (p : Profile) :
    (updBudget t p).intervention = p.intervention := by
  simp only [updBudget]
  repeat' split
  all_goals rfl

theorem updBudget_objectif_frame (t : List Char) (p : Profile) :
    (updBudget t p).objectif = p.objectif := by
  simp only [updBudget]
  repeat' split
  all_goals rfl

theorem updBudget_timing_frame (t : List Char) (p : Profile) :
    (updBudget t p).timing = p.timing := by
  simp only [updBudget]
  repeat' split
  all_goals rfl

theorem updBudget_medical_frame (t : List Char) (p : Profile) :
    (updBudget t p).medical = p.medical := by
  simp only [updBudget]
  repeat' split
  all_goals rfl

theorem updBudget_identite_frame (t : List Char) (p : Profile) :
    (updBudget t p).identite = p.identite := by
  simp only [updBudget]
  repeat' split
  all_goals rfl

theorem updBudget_contact_frame (t : List Char) (p : Profile) :
    (updBudget t p).contact = p.contact := by
  simp only [updBudget]
  repeat' split
  all_goals rfl

theorem updTiming_intervention_frame (t : List Char) (p : Profile) :
    (updTiming t p).intervention = p.intervention := by
  simp only [updTiming]
  repeat' split
  all_goals rfl

theorem updTiming_objectif_frame (t : List Char) (p : Profile) :
    (updTiming t p).objectif = p.objectif := by
  simp only [updTiming]
  repeat' split
  all_goals rfl

theorem updTiming_budget_frame (t : List Char) (p : Profile) :
    (updTiming t p).budget = p.budget := by
  simp only [updTiming]
  repeat' split
  all_goals rfl

theorem updTiming_medical_frame (t : List Char) (p : Profile) :
    (updTiming t p).medical = p.medical := by
  simp only [updTiming]
  repeat' split
  all_goals rfl

theorem updTiming_identite_frame (t : List Char) (p : Profile) :
    (updTiming t p).identite = p.identite := by
  simp only [updTiming]
  repeat' split
  all_goals rfl

theorem updTiming_contact_frame (t : List Char) (p : Profile) :
    (updTiming t p).contact = p.contact := by
  simp only [updTiming]
  repeat' split
  all_goals rfl

theorem updMedical_intervention_frame (raw : List Char) (t : List Char) (p : Profile) :
    (updMedical raw t p).intervention = p.intervention := by
  simp only [updMedical]
  repeat' split
  all_goals rfl

theorem updMedical_objectif_frame (raw : List Char) (t : List Char) (p : Profile) :
    (updMedical raw t p).objectif = p.objectif := by
  simp only [updMedical]
  repeat' split
  all_goals rfl

theorem updMedical_budget_frame (raw : List Char) (t : List Char) (p : Profile) :
    (updMedical raw t p).budget = p.budget := by
  simp only [updMedical]
  repeat' split
  all_goals rfl

theorem updMedical_timing_frame (raw : List Char) (t : List Char) (p : Profile) :
    (updMedical raw t p).timing = p.timing := by
  simp only [updMedical]
  repeat' split
  all_goals rfl

theorem updMedical_identite_frame (raw : List Char) (t : List Char) (p : Profile) :
    (updMedical raw t p).identite = p.identite := by
  simp only [updMedical]
  repeat' split
  all_goals rfl

theorem updMedical_contact_frame (raw : List Char) (t : List Char) (p : Profile) :
    (updMedical raw t p).contact = p.contact := by
  simp only [updMedical]
  repeat' split
  all_goals rfl

theorem updIdentite_intervention_frame (t : List Char) (p : Profile) :
    (updIdentite t p).intervention = p.intervention := by
  simp only [updIdentite]
  repeat' split
  all_goals rfl

theorem updIdentite_objectif_frame (t : List Char) (p : Profile) :
    (updIdentite t p).objectif = p.objectif := by
  simp only [updIdentite]
  repeat' split
  all_goals rfl

theorem updIdentite_budget_frame (t : List Char) (p : Profile) :
    (updIdentite t p).budget = p.budget := by
  simp only [updIdentite]
  repeat' split
  all_goals rfl

theorem updIdentite_timing_frame (t : List Char) (p : Profile) :
    (updIdentite t p).timing = p.timing := by
  simp only [updIdentite]
  repeat' split
  all_goals rfl

theorem updIdentite_medical_frame (t : List Char) (p : Profile) :
    (updIdentite t p).medical = p.medical := by
  simp only [updIdentite]
  repeat' split
  all_goals rfl

theorem updIdentite_contact_frame (t : List Char) (p : Profile) :
    (updIdentite t p).contact = p.contact := by
  simp only [updIdentite]
  repeat' split
  all_goals rfl

theorem updContact_intervention_frame (t : List Char) (p : Profile) :
    (updContact t p).intervention = p.intervention := by
  simp only [updContact]
  repeat' split
  all_goals rfl

theorem updContact_objectif_frame (t : List Char) (p : Profile) :
    (updContact t p).objectif = p.objectif := by
  simp only [updContact]
  repeat' split
  all_goals rfl

theorem updContact_budget_frame (t : List Char) (p : Profile) :
    (updContact t p).budget = p.budget := by
  simp only [updContact]
  repeat' split
  all_goals rfl

theorem updContact_timing_frame (t : List Char) (p : Profile) :
    (updContact t p).timing = p.timing := by
  simp only [updContact]
  repeat' split
  all_goals rfl

theorem updContact_medical_frame (t : List Char) (p : Profile) :
    (updContact t p).medical = p.medical := by
  simp only [updContact]
  repeat' split
  all_goals rfl

theorem updContact_identite_frame (t : List Char) (p : Profile) :
    (updContact t p).identite = p.identite := by
  simp only [updContact]
  repeat' split
  all_goals rfl


theorem updIntervention_keep (raw t : List Char) (p : Profile) (v : List Char)
    (h : p.intervention = some v) : (updIntervention raw t p).intervention = some v := by
  simp only [updIntervention]
  split <;> simp_all [coalesce]

theorem updObjectif_keep (raw t : List Char) (p : Profile) (v : List Char)
    (h : p.objectif = some v) : (updObjectif raw t p).objectif = some v := by
  simp only [updObjectif]
  split <;> simp_all [coalesce]

theorem updBudget_keep (t : List Char) (p : Profile) (b : BudgetVal)
    (h : p.budget = some b) : (updBudget t p).budget = some b := by
  simp only [updBudget]
  split <;> simp_all

theorem updTiming_keep (t : List Char) (p : Profile) (v : List Char)
    (h : p.timing = some v) : (updTiming t p).timing = some v := by
  simp only [updTiming]
  split <;> split <;> split <;> split <;> simp_all [coalesce]

theorem updMedical_keep (raw t : List Char) (p : Profile) (v : List Char)
    (h : p.medical = some v) : (updMedical raw t p).medical = some v := by
  simp only [updMedical]
  split <;> simp_all [coalesce]

theorem updContact_keep (t : List Char) (p : Profile) (c : ContactPref)
    (h : p.contact = some c) : (updContact t p).contact = some c := by
  simp only [updContact]
  repeat' split
  all_goals simp_all

theorem updIdentite_keep (t : List Char) (p : Profile) (idn : Identite)
    (h : p.identite = some idn) :
    ∃ idn2, (updIdentite t p).identite = some idn2 ∧ idn2.nom = idn.nom ∧
      idn2.prenom = idn.prenom ∧
      (∀ a, idn.age = some a → a ≠ 0 → idn2.age = some a) := by
  simp only [updIdentite, h]
  rcases hage : ageOf t with _ | a
  · exact ⟨idn, by simp [h], rfl, rfl, fun a ha _ => ha⟩
  · rcases hia : idn.age with _ | b
    · refine ⟨{ idn with age := some a }, by simp [optTruthy, hia], rfl, rfl, ?_⟩
      intro x hx _
      exact Option.noConfusion hx
    · by_cases hb0 : b = 0
      · subst hb0
        refine ⟨{ idn with age := some a }, by simp [optTruthy, hia], rfl, rfl, ?_⟩
        intro x hx hxz
        exact absurd (Option.some.inj hx).symm hxz
      · exact ⟨idn, by simp [optTruthy, hia, hb0, h], rfl, rfl, fun x hx _ => hia.trans hx⟩

theorem extractInfo_intervention_keep (raw : List Char) (p : Profile) (v : List Char)
    (h : p.intervention = some v) : (extractInfo raw p).intervention = some v := by
  simp only [extractInfo, updContact_intervention_frame, updIdentite_intervention_frame,
    updMedical_intervention_frame, updTiming_intervention_frame, updBudget_intervention_frame,
    updObjectif_intervention_frame, updAnamnese_intervention_frame]
  exact updIntervention_keep raw (normalize raw) p v h

theorem extractInfo_objectif_keep (raw : List Char) (p : Profile) (v : List Char)
    (h : p.objectif = some v) : (extractInfo raw p).objectif = some v := by
  simp only [extractInfo, updContact_objectif_frame, updIdentite_objectif_frame,
    updMedical_objectif_frame, updTiming_objectif_frame, updBudget_objectif_frame]
  exact updObjectif_keep raw (normalize raw) _ v
    (by simp only [updAnamnese_objectif_frame, updIntervention_objectif_frame]; exact h)

theorem extractInfo_budget_keep (raw : List Char) (p : Profile) (b : BudgetVal)
    (h : p.budget = some b) : (extractInfo raw p).budget = some b := by
  simp only [extractInfo, updContact_budget_frame, updIdentite_budget_frame,
    updMedical_budget_frame, updTiming_budget_frame]
  exact updBudget_keep (normalize raw) _ b
    (by simp only [updObjectif_budget_frame, updAnamnese_budget_frame,
          updIntervention_budget_frame]; exact h)

theorem extractInfo_timing_keep (raw : List Char) (p : Profile) (v : List Char)
    (h : p.timing = some v) : (extractInfo raw p).timing = some v := by
  simp only [extractInfo, updContact_timing_frame, updIdentite_timing_frame,
    updMedical_timing_frame]
  exact updTiming_keep (normalize raw) _ v
    (by simp only [updBudget_timing_frame, updObjectif_timing_frame,
          updAnamnese_timing_frame, updIntervention_timing_frame]; exact h)

theorem extractInfo_medical_keep (raw : List Char) (p : Profile) (v : List Char)
    (h : p.medical = some v) : (extractInfo raw p).medical = some v := by
  simp only [extractInfo, updContact_medical_frame, updIdentite_medical_frame]
  exact updMedical_keep raw (normalize raw) _ v
    (by simp only [updTiming_medical_frame, updBudget_medical_frame,
          updObjectif_medical_frame, updAnamnese_medical_frame,
          updIntervention_medical_frame]; exact h)

theorem extractInfo_contact_keep (raw : List Char) (p : Profile) (c : ContactPref)
    (h : p.contact = some c) : (extractInfo raw p).contact = some c := by
  simp only [extractInfo]
  exact updContact_keep (normalize raw) _ c
    (by simp only [updIdentite_contact_frame, updMedical_contact_frame,
          updTiming_contact_frame, updBudget_contact_frame, updObjectif_contact_frame,
          updAnamnese_contact_frame, updIntervention_contact_frame]; exact h)

theorem extractInfo_identite_keep (raw : List Char) (p : Profile) (idn : Identite)
    (h : p.identite = some idn) :
    ∃ idn2, (extractInfo raw p).identite = some idn2 ∧ idn2.nom = idn.nom ∧
      idn2.prenom = idn.prenom ∧
      (∀ a, idn.age = some a → a ≠ 0 → idn2.age = some a) := by
  simp only [extractInfo, updContact_identite_frame]
  exact updIdentite_keep (normalize raw) _ idn
    (by simp only [updMedical_identite_frame, updTiming_identite_frame,
          updBudget_identite_frame, updObjectif_identite_frame,
          updAnamnese_identite_frame, updIntervention_identite_frame]; exact h)

theorem extractSeq_intervention_keep (ts : List (List Char)) (p : Profile) (v : List Char)
    (h : p.intervention = some v) : (extractSeq ts p).intervention = some v := by
  induction ts generalizing p with
  | nil => simpa [extractSeq] using h
  | cons t rest ih =>
    simp only [extractSeq, List.foldl_cons] at ih ⊢
    exact ih _ (extractInfo_intervention_keep t p v h)

theorem extractSeq_objectif_keep (ts : List (List Char)) (p : Profile) (v : List Char)
    (h : p.objectif = some v) : (extractSeq ts p).objectif = some v := by
  induction ts generalizing p with
  | nil => simpa [extractSeq] using h
  | cons t rest ih =>
    simp only [extractSeq, List.foldl_cons] at ih ⊢
    exact ih _ (extractInfo_objectif_keep t p v h)

theorem extractSeq_budget_keep (ts : List (List Char)) (p : Profile) (b : BudgetVal)
    (h : p.budget = some b) : (extractSeq ts p).budget = some b := by
  induction ts generalizing p with
  | nil => simpa [extractSeq] using h
  | cons t rest ih =>
    simp only [extractSeq, List.foldl_cons] at ih ⊢
    exact ih _ (extractInfo_budget_keep t p b h)

theorem extractSeq_timing_keep (ts : List (List Char)) (p : Profile) (v : List Char)
    (h : p.timing = some v) : (extractSeq ts p).timing = some v := by
  induction ts generalizing p with
  | nil => simpa [extractSeq] using h
  | cons t rest ih =>
    simp only [extractSeq, List.foldl_cons] at ih ⊢
    exact ih _ (extractInfo_timing_keep t p v h)

theorem extractSeq_medical_keep (ts : List (List Char)) (p : Profile) (v : List Char)
    (h : p.medical = some v) : (extractSeq ts p).medical = some v := by
  induction ts generalizing p with
  | nil => simpa [extractSeq] using h
  | cons t rest ih =>
    simp only [extractSeq, List.foldl_cons] at ih ⊢
    exact ih _ (extractInfo_medical_keep t p v h)

theorem extractSeq_contact_keep (ts : List (List Char)) (p : Profile) (c : ContactPref)
    (h : p.contact = some c) : (extractSeq ts p).contact = some c := by
  induction ts generalizing p with
  | nil => simpa [extractSeq] using h
  | cons t rest ih =>
    simp only [extractSeq, List.foldl_cons] at ih ⊢
    exact ih _ (extractInfo_contact_keep t p c h)

theorem extractSeq_identite_keep (ts : List (List Char)) (p : Profile) (idn : Identite)
    (h : p.identite = some idn) :
    ∃ idn2, (extractSeq ts p).identite = some idn2 ∧ idn2.nom = idn.nom ∧
      idn2.prenom = idn.prenom ∧
      (∀ a, idn.age = some a → a ≠ 0 → idn2.age = some a) := by
  induction ts generalizing p idn with
  | nil => exact ⟨idn, by simpa [extractSeq] using h, rfl, rfl, fun a ha _ => ha⟩
  | cons t rest ih =>
    obtain ⟨idn1, h1, hn1, hp1, ha1⟩ := extractInfo_identite_keep t p idn h
    obtain ⟨idn2, h2, hn2, hp2, ha2⟩ := ih (extractInfo t p) idn1 h1
    refine ⟨idn2, ?_, hn2.trans hn1, hp2.trans hp1,
      fun a ha hz => ha2 a (ha1 a ha hz) hz⟩
    simpa [extractSeq, List.foldl_cons] using h2

end Snapshot

namespace Server

theorem updSlotIntervention_keep (t : List Char) (s : Slots) (v : List Char)
    (h : s.intervention = some v) (hv : v ≠ []) :
    (updSlotIntervention t s).intervention = some v := by
  simp only [updSlotIntervention]
  repeat' split
  all_goals simp_all [strTruthy]

theorem updSlotIntervention_budget_frame (t : List Char) (s : Slots) :
    (updSlotIntervention t s).budget = s.budget := by
  simp only [updSlotIntervention]
  repeat' split
  all_goals rfl

theorem updSlotIntervention_delai_frame (t : List Char) (s : Slots) :
    (updSlotIntervention t s).delai = s.delai := by
  simp only [updSlotIntervention]
  repeat' split
  all_goals rfl

theorem updSlotIntervention_nom_frame (t : List Char) (s : Slots) :
    (updSlotIntervention t s).nom = s.nom := by
  simp only [updSlotIntervention]
  repeat' split
  all_goals rfl

theorem updSlotBudget_intervention_frame (t : List Char) (s : Slots) :
    (updSlotBudget t s).intervention = s.intervention := by
  simp only [updSlotBudget]
  repeat' split
  all_goals rfl

theorem updSlotBudget_keep (t : List Char) (s : Slots) (v : List Char)
    (h : s.budget = some v) (hv : v ≠ []) :
    (updSlotBudget t s).budget = some v := by
  simp only [updSlotBudget]
  repeat' split
  all_goals simp_all [strTruthy]

theorem updSlotBudget_delai_frame (t : List Char) (s : Slots) :
    (updSlotBudget t s).delai = s.delai := by
  simp only [updSlotBudget]
  repeat' split
  all_goals rfl

theorem updSlotBudget_nom_frame (t : List Char) (s : Slots) :
    (updSlotBudget t s).nom = s.nom := by
  simp only [updSlotBudget]
  repeat' split
  all_goals rfl

theorem updSlotDelai_intervention_frame (t : List Char) (s : Slots) :
    (updSlotDelai t s).intervention = s.intervention := by
  simp only [updSlotDelai]
  repeat' split
  all_goals rfl

theorem updSlotDelai_budget_frame (t : List Char) (s : Slots) :
    (updSlotDelai t s).budget = s.budget := by
  simp only [updSlotDelai]
  repeat' split
  all_goals rfl

theorem updSlotDelai_keep (t : List Char) (s : Slots) (v : List Char)
    (h : s.delai = some v) (hv : v ≠ []) :
    (updSlotDelai t s).delai = some v := by
  simp only [updSlotDelai]
  repeat' split
  all_goals simp_all [strTruthy]

theorem updSlotDelai_nom_frame (t : List Char) (s : Slots) :
    (updSlotDelai t s).nom = s.nom := by
  simp only [updSlotDelai]
  repeat' split
  all_goals rfl

theorem updSlotNom_intervention_frame (text : List Char) (s : Slots) :
    (updSlotNom text s).intervention = s.intervention := by
  simp only [updSlotNom]
  repeat' split
  all_goals rfl

theorem updSlotNom_budget_frame (text : List Char) (s : Slots) :
    (updSlotNom text s).budget = s.budget := by
  simp only [updSlotNom]
  repeat' split
  all_goals rfl

theorem updSlotNom_delai_frame (text : List Char) (s : Slots) :
    (updSlotNom text s).delai = s.delai := by
  simp only [updSlotNom]
  repeat' split
  all_goals rfl

theorem updSlotNom_keep (text : List Char) (s : Slots) (v : List Char)
    (h : s.nom = some v) (hv : v ≠ []) :
    (updSlotNom text s).nom = some v := by
  simp only [updSlotNom]
  repeat' split
  all_goals simp_all [strTruthy]

theorem extractSlots_intervention_keep (s : Slots) (text : List Char) (v : List Char)
    (h : s.intervention = some v) (hv : v ≠ []) :
    (extractSlots s text).intervention = some v := by
  simp only [extractSlots, updSlotNom_intervention_frame, updSlotDelai_intervention_frame,
    updSlotBudget_intervention_frame]
  exact updSlotIntervention_keep _ _ v h hv

theorem extractSlots_budget_keep (s : Slots) (text : List Char) (v : List Char)
    (h : s.budget = some v) (hv : v ≠ []) : (extractSlots s text).budget = some v := by
  simp only [extractSlots, updSlotNom_budget_frame, updSlotDelai_budget_frame]
  exact updSlotBudget_keep _ _ v (by simp only [updSlotIntervention_budget_frame]; exact h) hv

theorem extractSlots_delai_keep (s : Slots) (text : List Char) (v : List Char)
    (h : s.delai = some v) (hv : v ≠ []) : (extractSlots s text).delai = some v := by
  simp only [extractSlots, updSlotNom_delai_frame]
  exact updSlotDelai_keep _ _ v
    (by simp only [updSlotBudget_delai_frame, updSlotIntervention_delai_frame]; exact h) hv

theorem extractSlots_nom_keep (s : Slots) (text : List Char) (v : List Char)
    (h : s.nom = some v) (hv : v ≠ []) : (extractSlots s text).nom = some v := by
  simp only [extractSlots]
  exact updSlotNom_keep _ _ v
    (by simp only [updSlotDelai_nom_frame, updSlotBudget_nom_frame,
          updSlotIntervention_nom_frame]; exact h) hv

theorem extractSlotsSeq_intervention_keep (ts : List (List Char)) (s : Slots) (v : List Char)
    (h : s.intervention = some v) (hv : v ≠ []) :
    (extractSlotsSeq ts s).intervention = some v := by
  induction ts generalizing s with
  | nil => simpa [extractSlotsSeq] using h
  | cons t rest ih =>
    simp only [extractSlotsSeq, List.foldl_cons] at ih ⊢
    exact ih _ (extractSlots_intervention_keep s t v h hv)

theorem extractSlotsSeq_budget_keep (ts : List (List Char)) (s : Slots) (v : List Char)
    (h : s.budget = some v) (hv : v ≠ []) : (extractSlotsSeq ts s).budget = some v := by
  induction ts generalizing s with
  | nil => simpa [extractSlotsSeq] using h
  | cons t rest ih =>
    simp only [extractSlotsSeq, List.foldl_cons] at ih ⊢
    exact ih _ (extractSlots_budget_keep s t v h hv)

theorem extractSlotsSeq_delai_keep (ts : List (List Char)) (s : Slots) (v : List Char)
    (h : s.delai = some v) (hv : v ≠ []) : (extractSlotsSeq ts s).delai = some v := by
  induction ts generalizing s with
  | nil => simpa [extractSlotsSeq] using h
  | cons t rest ih =>
    simp only [extractSlotsSeq, List.foldl_cons] at ih ⊢
    exact ih _ (extractSlots_delai_keep s t v h hv)

theorem extractSlotsSeq_nom_keep (ts : List (List Char)) (s : Slots) (v : List Char)
    (h : s.nom = some v) (hv : v ≠ []) : (extractSlotsSeq ts s).nom = some v := by
  induction ts generalizing s with
  | nil => simpa [extractSlotsSeq] using h
  | cons t rest ih =>
    simp only [extractSlotsSeq, List.foldl_cons] at ih ⊢
    exact ih _ (extractSlots_nom_keep s t v h hv)

end Server


/-!
## Orchestrator lemmas

The shape of a successful webhook turn and of a deduplicated one.
-/

namespace Server

theorem push_getLast (now : Nat) (conv : Conv) (role : Role) (content : List Char) :
    (push now conv role content).history.getLast? = some (Turn.mk role content) := by
  simp only [push]
  split
  · rename_i hlen
    rw [List.drop_append_of_le_length (by simp [MAX_TURNS] at hlen ⊢; try omega)]
    simp
  · simp

theorem applySummary_history (sum : Option (List Char)) (conv : Conv) :
    (applySummary sum conv).history = conv.history := by
  simp only [applySummary]
  repeat' split
  all_goals rfl

theorem applyTurn_reply (now : Nat) (text : List Char) (gen sum : Option (List Char))
    (conv : Conv) :
    (applyTurn now text gen sum conv).2 = enforceStructure (genReply gen) := by
  simp only [applyTurn]

theorem applyTurn_last (now : Nat) (text : List Char) (gen sum : Option (List Char))
    (conv : Conv) :
    (applyTurn now text gen sum conv).1.history.getLast? =
      some (Turn.mk Role.assistant (enforceStructure (genReply gen))) := by
  simp only [applyTurn, applySummary_history]
  exact push_getLast _ _ _ _

theorem push_history_congr (now now2 : Nat) (c1 c2 : Conv) (role : Role) (content : List Char)
    (h : c1.history = c2.history) :
    (push now c1 role content).history = (push now2 c2 role content).history := by
  simp [push, h]

theorem applyTurn_history (now : Nat) (text : List Char) (gen sum : Option (List Char))
    (conv : Conv) :
    (applyTurn now text gen sum conv).1.history =
      (push now (push now conv Role.user text) Role.assistant
        (enforceStructure (genReply gen))).history := by
  simp only [applyTurn, applySummary_history]
  apply push_history_congr
  apply push_history_congr
  split <;> rfl

theorem push_history_short (now : Nat) (conv : Conv) (role : Role) (content : List Char)
    (hlen : conv.history.length < MAX_TURNS) :
    (push now conv role content).history = conv.history ++ [Turn.mk role content] := by
  simp only [push]
  rw [if_neg (by simp [MAX_TURNS] at hlen ⊢; omega)]

theorem applyTurn_history_short (now : Nat) (text : List Char) (gen sum : Option (List Char))
    (conv : Conv) (hlen : conv.history.length + 2 ≤ MAX_TURNS) :
    (applyTurn now text gen sum conv).1.history =
      conv.history ++ [Turn.mk Role.user text,
        Turn.mk Role.assistant (enforceStructure (genReply gen))] := by
  rw [applyTurn_history]
  have h1 : (push now conv Role.user text).history = conv.history ++ [Turn.mk Role.user text] :=
    push_history_short now conv Role.user text (by simp [MAX_TURNS] at hlen ⊢; omega)
  rw [push_history_short _ _ _ _ (by simp [h1, MAX_TURNS] at hlen ⊢; omega), h1,
    List.append_assoc]
  rfl

theorem getConv_processed (now : Nat) (db : DB) (id : List Char) :
    (getConv now db id).2.processed = db.processed := by
  simp only [getConv]
  repeat' split
  all_goals rfl

theorem webhookStep_ok (now : Nat) (db0 : DB) (inb : Inbound) (gen sum : Option (List Char))
    (hs : inb.sender.isEmpty = false) (ht : (jsTrim inb.text).isEmpty = false)
    (hp : (jsTrim inb.phoneNumberId).isEmpty = false)
    (hm : inb.messageId.isEmpty = false)
    (hnew : processedTruthy db0.processed inb.messageId = false) :
    ∃ db2 conv0,
      getConv now { db0 with processed := pruneProcessed now (insertA db0.processed inb.messageId now) }
        (convKey inb) = (conv0, db2) ∧
      webhookStep now db0 inb gen sum =
        ({ db2 with conversations := (insertA db2.conversations (convKey inb)
            ((applyTurn now (jsTrim inb.text) gen sum conv0).1)) },
         [Ev.genCall, Ev.sumCall,
          Ev.save { db2 with conversations := (insertA db2.conversations (convKey inb)
            ((applyTurn now (jsTrim inb.text) gen sum conv0).1)) },
          Ev.send (applyTurn now (jsTrim inb.text) gen sum conv0).2],
         Wres.ok) := by
  rcases hg : getConv now { db0 with processed := pruneProcessed now (insertA db0.processed inb.messageId now) }
      (convKey inb) with ⟨conv0, db2⟩
  refine ⟨db2, conv0, rfl, ?_⟩
  simp only [webhookStep, hs, ht, hp, Bool.or_self, Bool.or_false, Bool.false_or,
    if_false, Bool.false_eq_true]
  rw [alreadyHandled_record now db0 inb.messageId hm hnew]
  simp only [convKey] at hg
  simp only [hg, convKey]

theorem webhookStep_dup (now : Nat) (db : DB) (inb : Inbound) (gen sum : Option (List Char))
    (hs : inb.sender.isEmpty = false) (ht : (jsTrim inb.text).isEmpty = false)
    (hp : (jsTrim inb.phoneNumberId).isEmpty = false)
    (hm : inb.messageId.isEmpty = false)
    (hdup : processedTruthy db.processed inb.messageId = true) :
    webhookStep now db inb gen sum = (db, [Ev.save db], Wres.duplicate) := by
  simp only [webhookStep, hs, ht, hp, Bool.or_self, Bool.or_false, Bool.false_or,
    if_false, Bool.false_eq_true]
  rw [alreadyHandled_dup now db inb.messageId hm hdup]

theorem sentAux_length (l : List Char) : ∀ (acc : List Char) (b sk : Bool),
    (sentAux l acc b sk).length = 1 + sentCount l b sk := by
  induction l with
  | nil => intro acc b sk; simp [sentAux, sentCount]
  | cons c rest ih =>
    intro acc b sk
    simp only [sentAux, sentCount]
    rcases sk with _ | _ <;> rcases hw : isJsWs c with _ | _ <;>
      rcases hb : b with _ | _ <;> simp [ih] <;> omega


theorem adjFree_append_one (xs : List Char) (c : Char) :
    adjFree (xs ++ [c]) =
      (adjFree xs && (match xs.getLast? with
        | some a => !(isSentPunct a && isJsWs c)
        | none => true)) := by
  induction xs with
  | nil => simp [adjFree]
  | cons x xs ih =>
    cases xs with
    | nil => simp [adjFree]
    | cons y ys =>
      have h2 : x :: y :: ys ++ [c] = x :: (y :: ys ++ [c]) := rfl
      rw [h2]
      show (!(isSentPunct x && isJsWs y) && adjFree (y :: ys ++ [c])) = _
      rw [ih]
      simp only [adjFree, List.getLast?_cons_cons, Bool.and_assoc]


theorem sentAux_pieces_adjFree (l : List Char) :
    ∀ (acc : List Char) (b sk : Bool),
      adjFree acc.reverse = true →
      (sk = true → acc = []) →
      (sk = false → ((acc = [] → b = false) ∧
        ∀ a acc2, acc = a :: acc2 → b = isSentPunct a)) →
      ∀ p ∈ sentAux l acc b sk, adjFree p = true := by
  induction l with
  | nil =>
    intro acc b sk hadj _ _ p hp
    simp only [sentAux, List.mem_singleton] at hp
    subst hp
    exact hadj
  | cons c rest ih =>
    intro acc b sk hadj hsk hnorm p hp
    rcases sk with _ | _
    · rcases hcond : b && isJsWs c with _ | _
      · have hp2 : p ∈ sentAux rest (c :: acc) (isSentPunct c) false := by
          simpa [sentAux, hcond] using hp
        refine ih (c :: acc) (isSentPunct c) false ?_ (fun h => nomatch h) ?_ p hp2
        · rw [List.reverse_cons, adjFree_append_one, hadj]
          rcases hacc : acc with _ | ⟨a, acc2⟩
          · simp
          · have hlast : (a :: acc2).reverse.getLast? = some a := by
              simp [List.getLast?_reverse]
            rw [hlast]
            rcases hw : isJsWs c with _ | _
            · simp
            · have hb := (hnorm rfl).2 a acc2 hacc
              rw [hb, hw] at hcond
              simp only [Bool.and_true] at hcond
              simp [hcond]
        · intro hfake
          exact ⟨(fun h => nomatch h), (fun a acc2 h => by cases h; rfl)⟩
      · have hp2 : p = acc.reverse ∨ p ∈ sentAux rest [] false true := by
          simpa [sentAux, hcond] using hp
        rcases hp2 with hp1 | hp2
        · subst hp1
          exact hadj
        · exact ih [] false true (by simp [adjFree]) (fun _ => rfl)
            (fun h => nomatch h) p hp2
    · rcases hw : isJsWs c with _ | _
      · have hp2 : p ∈ sentAux rest [c] (isSentPunct c) false := by
          simpa [sentAux, hw] using hp
        refine ih [c] (isSentPunct c) false (by simp [adjFree]) (fun h => nomatch h)
          ?_ p hp2
        intro hfake
        exact ⟨(fun h => nomatch h), (fun a acc2 h => by cases h; rfl)⟩
      · have hp2 : p ∈ sentAux rest acc false true := by
          simpa [sentAux, hw] using hp
        exact ih acc false true hadj (fun _ => hsk rfl) (fun h => nomatch h) p hp2


theorem sentCount_consume (p : List Char) :
    ∀ (b sk : Bool) (rest : List Char),
      adjFree p = true →
      (sk = true ∨ ∀ c q, p = c :: q → (b && isJsWs c) = false) →
      ∃ b2 sk2, sentCount (p ++ rest) b sk = sentCount rest b2 sk2 := by
  induction p with
  | nil => exact fun b sk rest _ _ => ⟨b, sk, rfl⟩
  | cons c p2 ih =>
    intro b sk rest hadj hstart
    have hadj2 : adjFree p2 = true := by
      rcases p2 with _ | ⟨d, p3⟩
      · rfl
      · simp only [adjFree, Bool.and_eq_true] at hadj
        exact hadj.2
    have hnext : ∀ b3, (∀ d q, p2 = d :: q → (isSentPunct c && isJsWs d) = false) →
        (∃ b2 sk2, sentCount (p2 ++ rest) b3 false = sentCount rest b2 sk2) →
        True := fun _ _ _ => trivial
    rcases sk with _ | _
    · rcases hstart with hst | hst
      · cases hst
      · have hc : (b && isJsWs c) = false := hst c p2 rfl
        have heq : sentCount (c :: p2 ++ rest) b false =
            sentCount (p2 ++ rest) (isSentPunct c) false := by
          simp [sentCount, hc]
        rw [heq]
        refine ih (isSentPunct c) false rest hadj2 (Or.inr ?_)
        intro d q hq
        subst hq
        simp only [adjFree, Bool.and_eq_true] at hadj
        have h1 := hadj.1
        rcases hX : isSentPunct c && isJsWs d with _ | _
        · rfl
        · rw [hX] at h1
          simp at h1
    · rcases hw : isJsWs c with _ | _
      · have heq : sentCount (c :: p2 ++ rest) b true =
            sentCount (p2 ++ rest) (isSentPunct c) false := by
          simp [sentCount, hw]
        rw [heq]
        refine ih (isSentPunct c) false rest hadj2 (Or.inr ?_)
        intro d q hq
        subst hq
        simp only [adjFree, Bool.and_eq_true] at hadj
        have h1 := hadj.1
        rcases hX : isSentPunct c && isJsWs d with _ | _
        · rfl
        · rw [hX] at h1
          simp at h1
      · have heq : sentCount (c :: p2 ++ rest) b true =
            sentCount (p2 ++ rest) false true := by
          simp [sentCount, hw]
        rw [heq]
        exact ih false true rest hadj2 (Or.inl rfl)


theorem sentCount_intercalate_le (pieces : List (List Char)) :
    ∀ (b sk : Bool), (∀ p ∈ pieces, adjFree p = true) → (sk = true ∨ b = false) →
      sentCount (List.intercalate [' '] pieces) b sk ≤ pieces.length - 1 := by
  induction pieces with
  | nil =>
    intro b sk _ _
    simp [List.intercalate, sentCount]
  | cons p rest ih =>
    intro b sk hadj hentry
    have hadjp : adjFree p = true := hadj p (List.mem_cons_self p rest)
    have hstart : sk = true ∨ ∀ c q, p = c :: q → (b && isJsWs c) = false := by
      rcases hentry with h | h
      · exact Or.inl h
      · exact Or.inr (fun c q _ => by simp [h])
    rcases rest with _ | ⟨q, rest2⟩
    · have hone : List.intercalate [' '] [p] = p ++ [] := by
        simp [List.intercalate]
      rw [hone]
      obtain ⟨b2, sk2, heq⟩ := sentCount_consume p b sk [] hadjp hstart
      rw [heq]
      simp [sentCount]
    · have hjoin : List.intercalate [' '] (p :: q :: rest2) =
          p ++ (' ' :: List.intercalate [' '] (q :: rest2)) := by
        simp [List.intercalate, List.intersperse]
      rw [hjoin]
      obtain ⟨b2, sk2, heq⟩ := sentCount_consume p b sk
        (' ' :: List.intercalate [' '] (q :: rest2)) hadjp hstart
      rw [heq]
      have hadjrest : ∀ r ∈ q :: rest2, adjFree r = true :=
        fun r hr => hadj r (List.mem_cons_of_mem p hr)
      have hlen : (q :: rest2).length ≥ 1 := by simp
      rcases sk2 with _ | _
      · rcases hb2 : b2 with _ | _
        · have heq2 : sentCount (' ' :: List.intercalate [' '] (q :: rest2)) false false =
              sentCount (List.intercalate [' '] (q :: rest2)) false false := by
            simp [sentCount, isJsWs, isSentPunct]
          rw [heq2]
          have := ih false false hadjrest (Or.inr rfl)
          simp only [List.length_cons] at *
          omega
        · have heq2 : sentCount (' ' :: List.intercalate [' '] (q :: rest2)) true false =
              1 + sentCount (List.intercalate [' '] (q :: rest2)) false true := by
            simp [sentCount, isJsWs]
          rw [heq2]
          have := ih false true hadjrest (Or.inl rfl)
          simp only [List.length_cons] at *
          omega
      · have heq2 : sentCount (' ' :: List.intercalate [' '] (q :: rest2)) b2 true =
            sentCount (List.intercalate [' '] (q :: rest2)) false true := by
          simp [sentCount, isJsWs]
        rw [heq2]
        have := ih false true hadjrest (Or.inl rfl)
        simp only [List.length_cons] at *
        omega


theorem enforce_resplit_le (out : List Char) :
    ((splitSentences (enforceStructure out)).filter (fun p => !p.isEmpty)).length ≤ 3 := by
  rcases hp : ((splitSentences (flattenNl out)).filter (fun p => !p.isEmpty)).take 3 with
    _ | ⟨p0, rest0⟩
  · have h0 : enforceStructure out = [] := by
      rw [enforceStructure, hp]
      rfl
    rw [h0]
    simp [splitSentences, sentAux]
  · have hpieces : ∀ p ∈ ((splitSentences (flattenNl out)).filter
        (fun q => !q.isEmpty)).take 3, adjFree p = true := by
      intro p hpm
      have hm1 : p ∈ (splitSentences (flattenNl out)).filter (fun q => !q.isEmpty) :=
        List.take_subset 3 _ hpm
      have hm2 : p ∈ splitSentences (flattenNl out) := List.mem_of_mem_filter hm1
      exact sentAux_pieces_adjFree (flattenNl out) [] false false rfl (fun _ => rfl)
        (fun _ => ⟨(fun _ => rfl), (fun a acc2 h => nomatch h)⟩) p hm2
    have h1 : ((splitSentences (enforceStructure out)).filter
        (fun p => !p.isEmpty)).length ≤ (splitSentences (enforceStructure out)).length :=
      List.length_filter_le _ _
    have h2 : (splitSentences (enforceStructure out)).length =
        1 + sentCount (enforceStructure out) false false := sentAux_length _ [] false false
    have h3 : sentCount (enforceStructure out) false false ≤
        (((splitSentences (flattenNl out)).filter (fun p => !p.isEmpty)).take 3).length - 1 :=
      sentCount_intercalate_le _ false false hpieces (Or.inr rfl)
    have h4 : (((splitSentences (flattenNl out)).filter
        (fun p => !p.isEmpty)).take 3).length ≤ 3 := List.length_take_le 3 _
    have h5 : 1 ≤ (((splitSentences (flattenNl out)).filter
        (fun p => !p.isEmpty)).take 3).length := by
      rw [hp]
      simp
    omega


end Server


/-!
## Claims

One theorem per claim of the specification audit, with witnesses for
the theorems that carry hypotheses and counterexamples for the claims
the code refutes.
-/

/-- C1 counterexample: two of the four concrete classifier vectors of
the claim fail on `leadCategory`.  A facts set with no budget and no
timing is classified `TIEDE` (WARM) — the WARM rule `budget absent OR
timing mid-term` fires before the COLD default — not `FROID` (COLD) as
the claim states; and `budget = 3000` with long-term timing
(`plus tard`) is classified `FROID` (COLD), not `TIEDE` (WARM). -/
theorem C1_counterexample :
    (Snapshot.leadCategory {} = Snapshot.Lead.tiede ∧
     Snapshot.leadCategory {} ≠ Snapshot.Lead.froid) ∧
    (Snapshot.leadCategory
        { budget := some { approx := some 3000 }, timing := some "plus tard".data } =
        Snapshot.Lead.froid ∧
     Snapshot.leadCategory
        { budget := some { approx := some 3000 }, timing := some "plus tard".data } ≠
        Snapshot.Lead.tiede) := by
  decide

/-- C1 (amended): `leadCategory` is a pure total function into
{CHAUD, TIEDE, FROID}, evaluated as an ordered rule list (HOT before
WARM before COLD): HOT exactly when a truthy budget value is present
and the timing is urgent or near-term; otherwise WARM exactly when the
budget is absent or the timing is mid-term; otherwise COLD.  On the
four concrete inputs: budget 3000 + urgent → HOT; no budget +
mid-term → WARM; no budget and no timing → WARM (not COLD as the
original claim said); budget 3000 + long-term → COLD (not WARM). -/
theorem C1_leadCategory_spec :
    (∀ p : Snapshot.Profile,
      (Snapshot.leadCategory p = Snapshot.Lead.chaud ↔
        Snapshot.budTruthy p = true ∧
          (p.timing = some "urgent".data ∨ p.timing = some "1–3 mois".data)) ∧
      (Snapshot.leadCategory p = Snapshot.Lead.tiede ↔
        ¬(Snapshot.budTruthy p = true ∧
            (p.timing = some "urgent".data ∨ p.timing = some "1–3 mois".data)) ∧
          (Snapshot.budTruthy p = false ∨ p.timing = some "3–12 mois".data)) ∧
      (Snapshot.leadCategory p = Snapshot.Lead.froid ↔
        ¬(Snapshot.budTruthy p = true ∧
            (p.timing = some "urgent".data ∨ p.timing = some "1–3 mois".data)) ∧
          ¬(Snapshot.budTruthy p = false ∨ p.timing = some "3–12 mois".data))) ∧
    Snapshot.leadCategory
      { budget := some { approx := some 3000 }, timing := some "urgent".data } =
      Snapshot.Lead.chaud ∧
    Snapshot.leadCategory { timing := some "3–12 mois".data } = Snapshot.Lead.tiede ∧
    Snapshot.leadCategory {} = Snapshot.Lead.tiede ∧
    Snapshot.leadCategory
      { budget := some { approx := some 3000 }, timing := some "plus tard".data } =
      Snapshot.Lead.froid := by
  refine ⟨?_, by decide, by decide, by decide, by decide⟩
  intro p
  unfold Snapshot.leadCategory
  rcases h1 : Snapshot.budTruthy p &&
      (p.timing == some "urgent".data || p.timing == some "1–3 mois".data) with _ | _ <;>
    rcases h2 : !Snapshot.budTruthy p || p.timing == some "3–12 mois".data with _ | _ <;>
      simp_all [Bool.and_eq_true, Bool.or_eq_true, beq_iff_eq, Bool.not_eq_true']

/-- C1 witness: the rule characterization evaluated at the concrete
facts set `budget = {approx 3000}, timing = urgent`. -/
theorem C1_leadCategory_spec_witness :
    Snapshot.leadCategory
        { budget := some { approx := some 3000 }, timing := some "urgent".data } =
        Snapshot.Lead.chaud ↔
      Snapshot.budTruthy
          { budget := some { approx := some 3000 }, timing := some "urgent".data } = true ∧
        ((some "urgent".data : Option (List Char)) = some "urgent".data ∨
         (some "urgent".data : Option (List Char)) = some "1–3 mois".data) :=
  (C1_leadCategory_spec.1
    { budget := some { approx := some 3000 }, timing := some "urgent".data }).1

/-- C5: `getConv` returns — and installs in the store — a completely
fresh record (empty history, empty slots, `greeted = false`, empty
summary, `updated_at = now`) whenever no record exists for the id or
the stored record has expired (`now - updated_at > TTL_MS`); nothing
from the stale record is carried over. -/
theorem C5_getConv_fresh (now : Nat) (db : Server.DB) (id : List Char)
    (h : Server.lookupA db.conversations id = none ∨
      ∃ c, Server.lookupA db.conversations id = some c ∧
        now - c.updated_at > Server.TTL_MS) :
    Server.getConv now db id =
      (Server.freshConv now,
       { db with conversations :=
          (Server.insertA db.conversations id (Server.freshConv now)) }) ∧
    (Server.freshConv now).history = [] ∧ (Server.freshConv now).slots = {} ∧
    (Server.freshConv now).greeted = false ∧ (Server.freshConv now).summary = [] := by
  refine ⟨?_, rfl, rfl, rfl, rfl⟩
  unfold Server.getConv
  rcases h with h | ⟨c, hc, hstale⟩
  · simp [h]
  · simp [hc, hstale]

/-- C5 witness: a store holding a record one millisecond beyond the
TTL is reloaded as a fresh empty record. -/
theorem C5_getConv_fresh_witness :
    (Server.lookupA (Server.DB.mk []
        [("k".data, Server.Conv.mk [Server.Turn.mk Server.Role.user "x".data]
          {} true "s".data 0)] []).conversations "k".data = none ∨
      ∃ c, Server.lookupA (Server.DB.mk []
          [("k".data, Server.Conv.mk [Server.Turn.mk Server.Role.user "x".data]
            {} true "s".data 0)] []).conversations "k".data = some c ∧
        Server.TTL_MS + 1 - c.updated_at > Server.TTL_MS) ∧
    Server.getConv (Server.TTL_MS + 1)
        (Server.DB.mk []
          [("k".data, Server.Conv.mk [Server.Turn.mk Server.Role.user "x".data]
            {} true "s".data 0)] []) "k".data =
      (Server.freshConv (Server.TTL_MS + 1),
       { Server.DB.mk []
          [("k".data, Server.Conv.mk [Server.Turn.mk Server.Role.user "x".data]
            {} true "s".data 0)] [] with
         conversations :=
          (Server.insertA (Server.DB.mk []
            [("k".data, Server.Conv.mk [Server.Turn.mk Server.Role.user "x".data]
              {} true "s".data 0)] []).conversations "k".data
            (Server.freshConv (Server.TTL_MS + 1))) }) :=
  ⟨Or.inr ⟨Server.Conv.mk [Server.Turn.mk Server.Role.user "x".data] {} true "s".data 0,
      by decide, by decide⟩,
   (C5_getConv_fresh (Server.TTL_MS + 1) _ "k".data
     (Or.inr ⟨Server.Conv.mk [Server.Turn.mk Server.Role.user "x".data] {} true "s".data 0,
        by decide, by decide⟩)).1⟩

/-- C6 counterexample: an identifier recorded at time 1 and checked at
time `TTL + 2` is older than the TTL, yet `alreadyHandled` still
reports it as already processed and does not purge it — presence is
checked before any pruning, and pruning runs only on the branch that
records a new identifier.  This refutes both "treated as already
processed only if younger than the TTL" and "entries older than the
TTL are purged on every invocation". -/
theorem C6_counterexample :
    (Server.alreadyHandled (Server.TTL + 2)
        (Server.DB.mk [] [] [("m1".data, 1)]) "m1".data).1 = true ∧
    (Server.alreadyHandled (Server.TTL + 2)
        (Server.DB.mk [] [] [("m1".data, 1)]) "m1".data).2 =
      Server.DB.mk [] [] [("m1".data, 1)] ∧
    Server.TTL + 2 - 1 > Server.TTL := by
  refine ⟨by decide, by decide, by decide⟩

/-- C6 (amended): `alreadyHandled` returns `false` without recording
anything when the identifier is empty; for a non-empty identifier not
yet present (with a truthy timestamp) it records the identifier with
the current time in the same call, purges the entries older than the
TTL, and returns `false` — afterwards every ledger entry is younger
than the TTL and every fresh entry of the old ledger (other than the
id itself) is retained; an identifier already present with a nonzero
timestamp is treated as already processed regardless of its age, and
no purge happens on such an invocation. -/
theorem C6_alreadyHandled_spec (now : Nat) (db : Server.DB) (mid : List Char) :
    (mid = [] → Server.alreadyHandled now db mid = (false, db)) ∧
    (mid ≠ [] → Server.processedTruthy db.processed mid = true →
      Server.alreadyHandled now db mid = (true, db)) ∧
    (mid ≠ [] → Server.processedTruthy db.processed mid = false →
      (Server.alreadyHandled now db mid).1 = false ∧
      Server.lookupA (Server.alreadyHandled now db mid).2.processed mid = some now ∧
      (∀ kv ∈ (Server.alreadyHandled now db mid).2.processed, now - kv.2 ≤ Server.TTL) ∧
      (∀ k v, k ≠ mid → Server.lookupA db.processed k = some v → now - v ≤ Server.TTL →
        Server.lookupA (Server.alreadyHandled now db mid).2.processed k = some v)) := by
  refine ⟨fun h => by simp [Server.alreadyHandled, h],
    fun h1 h2 => Server.alreadyHandled_dup now db mid (by simpa using h1) h2,
    fun h1 h2 => ?_⟩
  rw [Server.alreadyHandled_record now db mid (by simpa using h1) h2]
  refine ⟨rfl, Server.recorded_lookup now db.processed mid, ?_, ?_⟩
  · intro kv hkv
    have := List.of_mem_filter hkv
    simpa using this
  · intro k v hk hkv hfresh
    apply Server.pruneProcessed_lookup _ _ _ _ _ hfresh
    rw [Server.lookupA_insertA_ne _ _ _ _ hk]
    exact hkv

/-- C6 witness: checking the unseen id `b` at time 5 on a ledger
holding `a ↦ 1` records `b ↦ 5`, keeps the fresh entry `a`, and
returns `false`. -/
theorem C6_alreadyHandled_spec_witness :
    (Server.alreadyHandled 5 (Server.DB.mk [] [] [("a".data, 1)]) "b".data).1 = false ∧
    Server.lookupA
      (Server.alreadyHandled 5 (Server.DB.mk [] [] [("a".data, 1)]) "b".data).2.processed
      "b".data = some 5 ∧
    Server.lookupA
      (Server.alreadyHandled 5 (Server.DB.mk [] [] [("a".data, 1)]) "b".data).2.processed
      "a".data = some 1 :=
  ⟨((C6_alreadyHandled_spec 5 (Server.DB.mk [] [] [("a".data, 1)]) "b".data).2.2
      (by decide) (by decide)).1,
   ((C6_alreadyHandled_spec 5 (Server.DB.mk [] [] [("a".data, 1)]) "b".data).2.2
      (by decide) (by decide)).2.1,
   ((C6_alreadyHandled_spec 5 (Server.DB.mk [] [] [("a".data, 1)]) "b".data).2.2
      (by decide) (by decide)).2.2.2 "a".data 1 (by decide) (by decide) (by decide)⟩

/-- C8 counterexample: the claim fails on the cited snapshot handlers.
In `part_000`, a message list at 40 entries (the truncation threshold)
drops to 20 entries after one more append — not "exactly at the cap" —
and at 20 entries it simply grows to 21; in `part_004` a list at the
threshold 20 drops to 10. -/
theorem C8_counterexample :
    (Snapshot.appendMessage40 (List.replicate 40 (0 : Nat)) 0).length = 20 ∧
    (Snapshot.appendMessage40 (List.replicate 20 (0 : Nat)) 0).length = 21 ∧
    (Snapshot.appendMessage20 (List.replicate 20 (0 : Nat)) 0).length = 10 := by
  decide

/-- C8 (amended): in the conversation store of `src/server.js`,
`push` on a history at the cap (`MAX_TURNS` = 24) leaves the length
exactly at the cap, retaining precisely the most recent turns in their
original order (the previous tail followed by the new turn) and
dropping the oldest entry; below the cap the history simply grows by
one.  The snapshot handlers instead truncate to the most recent 20
(respectively 10) messages only once the length exceeds 40
(respectively 20), so there the length falls below the threshold
rather than staying at it. -/
theorem C8_push_bounded (now : Nat) (conv : Server.Conv) (role : Server.Role)
    (content : List Char) :
    (conv.history.length = Server.MAX_TURNS →
      (Server.push now conv role content).history =
        conv.history.tail ++ [Server.Turn.mk role content] ∧
      (Server.push now conv role content).history.length = Server.MAX_TURNS) ∧
    (conv.history.length < Server.MAX_TURNS →
      (Server.push now conv role content).history =
        conv.history ++ [Server.Turn.mk role content]) ∧
    (∀ (msgs : List Nat) (m : Nat), msgs.length = 40 →
      Snapshot.appendMessage40 msgs m = msgs.drop 21 ++ [m] ∧
      (Snapshot.appendMessage40 msgs m).length = 20) := by
  have h1 : (conv.history ++ [Server.Turn.mk role content]).length =
      conv.history.length + 1 := by simp
  refine ⟨?_, ?_, ?_⟩
  · intro hlen
    have hlen2 : conv.history.length = 24 := by simpa [Server.MAX_TURNS] using hlen
    simp only [Server.push, Server.MAX_TURNS, h1, hlen2]
    rw [if_pos (by omega)]
    have h2 : 24 + 1 - 24 = 1 := by omega
    rw [h2, List.drop_append_of_le_length (by omega), List.drop_one]
    refine ⟨rfl, ?_⟩
    have ht : conv.history.tail.length = 23 := by simp [hlen2]
    simp [ht]
  · intro hlen
    have hlen2 : conv.history.length < 24 := by simpa [Server.MAX_TURNS] using hlen
    simp only [Server.push, Server.MAX_TURNS, h1]
    rw [if_neg (by omega)]
  · intro msgs m hlen
    have h2 : (msgs ++ [m]).length = 41 := by simp [hlen]
    simp only [Snapshot.appendMessage40, h2]
    rw [if_pos (by omega)]
    have h3 : (41 : Nat) - 20 = 21 := by omega
    rw [h3, List.drop_append_of_le_length (by omega)]
    refine ⟨rfl, ?_⟩
    simp [hlen]

/-- C8 witness: pushing onto a history of 24 identical turns keeps the
length at 24 with the new turn last, and the `part_000` truncation at
40 messages drops to 20. -/
theorem C8_push_bounded_witness :
    (Server.push 7 (Server.Conv.mk
        (List.replicate 24 (Server.Turn.mk Server.Role.user "a".data)) {} false [] 0)
        Server.Role.assistant "b".data).history =
      (List.replicate 24 (Server.Turn.mk Server.Role.user "a".data)).tail ++
        [Server.Turn.mk Server.Role.assistant "b".data] ∧
    (Server.push 7 (Server.Conv.mk
        (List.replicate 24 (Server.Turn.mk Server.Role.user "a".data)) {} false [] 0)
        Server.Role.assistant "b".data).history.length = Server.MAX_TURNS ∧
    Snapshot.appendMessage40 (List.replicate 40 (5 : Nat)) 6 =
      (List.replicate 40 (5 : Nat)).drop 21 ++ [6] :=
  ⟨((C8_push_bounded 7 (Server.Conv.mk
      (List.replicate 24 (Server.Turn.mk Server.Role.user "a".data)) {} false [] 0)
      Server.Role.assistant "b".data).1 (by decide)).1,
   ((C8_push_bounded 7 (Server.Conv.mk
      (List.replicate 24 (Server.Turn.mk Server.Role.user "a".data)) {} false [] 0)
      Server.Role.assistant "b".data).1 (by decide)).2,
   ((C8_push_bounded 7 (Server.Conv.mk
      (List.replicate 24 (Server.Turn.mk Server.Role.user "a".data)) {} false [] 0)
      Server.Role.assistant "b".data).2.2 (List.replicate 40 5) 6 (by decide)).1⟩

/-- C9: the output filter `sanitizeReply` returns the candidate reply
unchanged when it contains no lead-sheet marker, and the fixed handoff
message otherwise; in either case the text it hands to delivery never
matches the lead-sheet marker pattern (no `📋 fiche lead` block and no
line starting with `Nom:`, `Prénom:`, `Budget:`, `Timing:`,
`Infos médicales:` or `Contact:`). -/
theorem C9_sanitizeReply_spec (s : List Char) :
    (Snapshot.markerTest s = false → Snapshot.sanitizeReply s = s) ∧
    (Snapshot.markerTest s = true →
      Snapshot.sanitizeReply s = Snapshot.sanitizeHandoff) ∧
    Snapshot.markerTest (Snapshot.sanitizeReply s) = false := by
  have hh : Snapshot.markerTest Snapshot.sanitizeHandoff = false := by decide
  rcases hm : Snapshot.markerTest s with _ | _
  · refine ⟨fun _ => ?_, fun h => ?_, ?_⟩
    · simp [Snapshot.sanitizeReply, hm]
    · cases h
    · simp [Snapshot.sanitizeReply, hm]
  · refine ⟨fun h => ?_, fun _ => ?_, ?_⟩
    · cases h
    · simp [Snapshot.sanitizeReply, hm]
    · simp [Snapshot.sanitizeReply, hm, hh]

/-- C9 witness: a reply containing a `Nom:` line is replaced by the
fixed handoff message, which itself does not match the marker. -/
theorem C9_sanitizeReply_spec_witness :
    Snapshot.markerTest "Nom: Dupont".data = true ∧
    Snapshot.sanitizeReply "Nom: Dupont".data = Snapshot.sanitizeHandoff ∧
    Snapshot.markerTest (Snapshot.sanitizeReply "Nom: Dupont".data) = false :=
  ⟨by decide,
   (C9_sanitizeReply_spec "Nom: Dupont".data).2.1 (by decide),
   (C9_sanitizeReply_spec "Nom: Dupont".data).2.2⟩


namespace Snapshot

theorem budgetOf_range_shape (t : List Char) (h : rfind brangeRx t ≠ none) :
    budgetOf t = none ∨
      ∃ mn mx, budgetOf t = some { min := some mn, max := some mx, approx := none } := by
  simp only [budgetOf]
  split
  · split
    · split
      · exact Or.inr ⟨_, _, rfl⟩
      · exact Or.inl rfl
    · exact Or.inl rfl
  · exact Or.inl rfl
  · rename_i heq
    exact absurd heq h

theorem budgetOf_b1_shape (t : List Char) (hr : rfind brangeRx t = none)
    (h : rfind b1Rx t ≠ none) :
    budgetOf t = none ∨
      ∃ n, budgetOf t = some { min := none, max := some n, approx := none } := by
  simp only [budgetOf, hr]
  split
  · split
    · split
      · exact Or.inr ⟨_, rfl⟩
      · exact Or.inl rfl
    · exact Or.inl rfl
  · exact Or.inl rfl
  · rename_i heq
    exact absurd heq h

theorem budgetOf_b2_shape (t : List Char) (hr : rfind brangeRx t = none)
    (h1 : rfind b1Rx t = none) (h : rfind b2Rx t ≠ none) :
    budgetOf t = none ∨
      ∃ n, budgetOf t = some { min := none, max := none, approx := some n } := by
  simp only [budgetOf, hr, h1]
  split
  · split
    · split
      · exact Or.inr ⟨_, rfl⟩
      · exact Or.inl rfl
    · exact Or.inl rfl
  · exact Or.inl rfl

theorem budgetOf_nonzero (t : List Char) (b : BudgetVal) (h : budgetOf t = some b) :
    (∀ n, b.min = some n → n ≠ 0) ∧ (∀ n, b.max = some n → n ≠ 0) ∧
    (∀ n, b.approx = some n → n ≠ 0) := by
  simp only [budgetOf] at h
  repeat' split at h
  all_goals simp only [Bool.and_eq_true, bne_iff_ne, ne_eq] at *
  all_goals
    first
      | exact Option.noConfusion h
      | (obtain rfl := Option.some.inj h
         refine ⟨?_, ?_, ?_⟩ <;> intro n hn <;>
           first
             | exact Option.noConfusion hn
             | (obtain rfl := Option.some.inj hn
                first
                  | omega
                  | (simp only [Nat.min_def, Nat.max_def]
                     split <;> omega)))

end Snapshot

/-- C2: budget extraction tries three shapes in priority order — an
explicit range, then a single max/budget amount, then a bare number
with a currency marker — a trailing `k` multiplies by 1000 with `.` or
`,` as decimal separator, an unparseable fragment yields `null` (and a
stored budget object never carries a zero amount).  Concretely:
`mon budget est de 3k€` → approx 3000, `entre 2000 et 3000` →
range {min 2000, max 3000}, `max 1.5k` → max 1500, and `pas cher`
leaves the budget slot unset. -/
theorem C2_budget_extraction :
    (Snapshot.extractInfo "mon budget est de 3k€".data {}).budget =
      some { min := none, max := none, approx := some 3000 } ∧
    (Snapshot.extractInfo "entre 2000 et 3000".data {}).budget =
      some { min := some 2000, max := some 3000, approx := none } ∧
    (Snapshot.extractInfo "max 1.5k".data {}).budget =
      some { min := none, max := some 1500, approx := none } ∧
    (Snapshot.extractInfo "pas cher".data {}).budget = none ∧
    Snapshot.euroToNumber "3k".data = some 3000 ∧
    Snapshot.euroToNumber "1.5k".data = some 1500 ∧
    Snapshot.euroToNumber "1,5k".data = some 1500 ∧
    Snapshot.euroToNumber "cher".data = none ∧
    Snapshot.euroToNumber [] = none ∧
    (∀ t, rfind Snapshot.brangeRx t ≠ none →
      Snapshot.budgetOf t = none ∨
        ∃ mn mx, Snapshot.budgetOf t =
          some { min := some mn, max := some mx, approx := none }) ∧
    (∀ t, rfind Snapshot.brangeRx t = none → rfind Snapshot.b1Rx t ≠ none →
      Snapshot.budgetOf t = none ∨
        ∃ n, Snapshot.budgetOf t = some { min := none, max := some n, approx := none }) ∧
    (∀ t, rfind Snapshot.brangeRx t = none → rfind Snapshot.b1Rx t = none →
      rfind Snapshot.b2Rx t ≠ none →
      Snapshot.budgetOf t = none ∨
        ∃ n, Snapshot.budgetOf t = some { min := none, max := none, approx := some n }) ∧
    (∀ t b, Snapshot.budgetOf t = some b →
      (∀ n, b.min = some n → n ≠ 0) ∧ (∀ n, b.max = some n → n ≠ 0) ∧
      (∀ n, b.approx = some n → n ≠ 0)) :=
  ⟨by decide, by decide, by decide, by decide, by decide, by decide, by decide,
   by decide, by decide,
   Snapshot.budgetOf_range_shape, Snapshot.budgetOf_b1_shape, Snapshot.budgetOf_b2_shape,
   Snapshot.budgetOf_nonzero⟩

/-- C2 witness: the priority and nonzero statements applied to the
normalized message `entre 2000 et 3000`, whose range pattern matches. -/
theorem C2_budget_extraction_witness :
    rfind Snapshot.brangeRx (Snapshot.normalize "entre 2000 et 3000".data) ≠ none ∧
    (Snapshot.budgetOf (Snapshot.normalize "entre 2000 et 3000".data) = none ∨
      ∃ mn mx, Snapshot.budgetOf (Snapshot.normalize "entre 2000 et 3000".data) =
        some { min := some mn, max := some mx, approx := none }) ∧
    ((∀ n, (some 2000 : Option Nat) = some n → n ≠ 0) ∧
     (∀ n, (some 3000 : Option Nat) = some n → n ≠ 0) ∧
     (∀ n, (none : Option Nat) = some n → n ≠ 0)) :=
  ⟨by decide,
   C2_budget_extraction.2.2.2.2.2.2.2.2.2.1 _ (by decide),
   C2_budget_extraction.2.2.2.2.2.2.2.2.2.2.2.2
     (Snapshot.normalize "entre 2000 et 3000".data)
     { min := some 2000, max := some 3000, approx := none } (by decide)⟩


/-- C4 counterexample to the original claim, which states that once a
slot holds a value no later extraction call changes it, age excepted
only as an absent-to-value fill.  The first-write-wins guards are JS
truthiness tests, so falsy held values are overwritten.  In
`extractSlots` of `server.js`, the message `je mappelle` followed by
blanks stores the empty string in `nom` (the `{2,30}` capture class
admits blanks and the match is trimmed); the held empty string is
falsy (`!slots.nom`), so a later `je mappelle Jean` replaces it.  In
`extractInfo` of `part_000`, `00 ans` creates the identity with
`age = 0` (`parseInt("00") = 0`); the held `0` is falsy
(`!profile.identite.age`), so a later `25 ans` changes the age from
one held value to another, not from absent. -/
theorem C4_counterexample :
    (Server.extractSlots { } "je mappelle   ".data).nom = some [] ∧
    (Server.extractSlots (Server.extractSlots { } "je mappelle   ".data)
        "je mappelle Jean".data).nom = some "Jean".data ∧
    (Snapshot.extractInfo "00 ans".data { }).identite =
      some { nom := none, prenom := none, age := some 0 } ∧
    (Snapshot.extractSeq ["00 ans".data, "25 ans".data] { }).identite =
      some { nom := none, prenom := none, age := some 25 } := by
  refine ⟨by decide, by decide, by decide, by decide⟩

/-- C4 (amended): slot extraction is first-write-wins for truthy held
values.  For every facts object and every sequence of extraction
calls, once a slot (intervention, objective, budget, timing, medical
notes, preferred contact channel, or the identity record with its name
parts) holds a value, no later `extractInfo` call changes it; the
identity age sub-field is kept whenever it holds a nonzero age (a held
`0` is falsy and may be overwritten, absent may be filled).  The four
slots of the `server.js` `extractSlots` are kept whenever the held
string is non-empty (a held empty string is falsy and may be
overwritten).  Both extractors are total Lean functions (they never
throw) and accept any partially populated facts object. -/
theorem C4_slot_monotonicity :
    (∀ (ts : List (List Char)) (p : Snapshot.Profile) (v : List Char),
      p.intervention = some v → (Snapshot.extractSeq ts p).intervention = some v) ∧
    (∀ (ts : List (List Char)) (p : Snapshot.Profile) (v : List Char),
      p.objectif = some v → (Snapshot.extractSeq ts p).objectif = some v) ∧
    (∀ (ts : List (List Char)) (p : Snapshot.Profile) (b : Snapshot.BudgetVal),
      p.budget = some b → (Snapshot.extractSeq ts p).budget = some b) ∧
    (∀ (ts : List (List Char)) (p : Snapshot.Profile) (v : List Char),
      p.timing = some v → (Snapshot.extractSeq ts p).timing = some v) ∧
    (∀ (ts : List (List Char)) (p : Snapshot.Profile) (v : List Char),
      p.medical = some v → (Snapshot.extractSeq ts p).medical = some v) ∧
    (∀ (ts : List (List Char)) (p : Snapshot.Profile) (c : Snapshot.ContactPref),
      p.contact = some c → (Snapshot.extractSeq ts p).contact = some c) ∧
    (∀ (ts : List (List Char)) (p : Snapshot.Profile) (idn : Snapshot.Identite),
      p.identite = some idn →
        ∃ idn2, (Snapshot.extractSeq ts p).identite = some idn2 ∧
          idn2.nom = idn.nom ∧ idn2.prenom = idn.prenom ∧
          (∀ a, idn.age = some a → a ≠ 0 → idn2.age = some a)) ∧
    (∀ (ts : List (List Char)) (sl : Server.Slots) (v : List Char),
      sl.intervention = some v → v ≠ [] →
        (Server.extractSlotsSeq ts sl).intervention = some v) ∧
    (∀ (ts : List (List Char)) (sl : Server.Slots) (v : List Char),
      sl.budget = some v → v ≠ [] → (Server.extractSlotsSeq ts sl).budget = some v) ∧
    (∀ (ts : List (List Char)) (sl : Server.Slots) (v : List Char),
      sl.delai = some v → v ≠ [] → (Server.extractSlotsSeq ts sl).delai = some v) ∧
    (∀ (ts : List (List Char)) (sl : Server.Slots) (v : List Char),
      sl.nom = some v → v ≠ [] → (Server.extractSlotsSeq ts sl).nom = some v) :=
  ⟨Snapshot.extractSeq_intervention_keep, Snapshot.extractSeq_objectif_keep,
   Snapshot.extractSeq_budget_keep, Snapshot.extractSeq_timing_keep,
   Snapshot.extractSeq_medical_keep, Snapshot.extractSeq_contact_keep,
   Snapshot.extractSeq_identite_keep,
   Server.extractSlotsSeq_intervention_keep, Server.extractSlotsSeq_budget_keep,
   Server.extractSlotsSeq_delai_keep, Server.extractSlotsSeq_nom_keep⟩

/-- C4 witness: a profile that already records the intervention
`laser` and an identity keeps them across two further extraction calls
that mention other treatments and an age, and a `server.js` slots
object holding the non-empty name `Jean` keeps it across a call whose
message matches the name pattern again. -/
theorem C4_slot_monotonicity_witness :
    (Snapshot.extractSeq ["je veux du botox".data, "plutot une greffe 33 ans".data]
        { intervention := some "laser".data }).intervention = some "laser".data ∧
    (∃ idn2, (Snapshot.extractSeq ["je veux du botox".data, "plutot une greffe 33 ans".data]
        { identite := some (Snapshot.Identite.mk (some "dupont".data)
          (some "marie".data) none) }).identite = some idn2 ∧
      idn2.nom = (Snapshot.Identite.mk (some "dupont".data) (some "marie".data) none).nom ∧
      idn2.prenom =
        (Snapshot.Identite.mk (some "dupont".data) (some "marie".data) none).prenom ∧
      (∀ a, (Snapshot.Identite.mk (some "dupont".data) (some "marie".data) none).age =
          some a → a ≠ 0 → idn2.age = some a)) ∧
    (Server.extractSlotsSeq ["je mappelle Zoe".data]
        { nom := some "Jean".data }).nom = some "Jean".data :=
  ⟨C4_slot_monotonicity.1 ["je veux du botox".data, "plutot une greffe 33 ans".data]
     { intervention := some "laser".data } "laser".data rfl,
   C4_slot_monotonicity.2.2.2.2.2.2.1
     ["je veux du botox".data, "plutot une greffe 33 ans".data]
     { identite := some (Snapshot.Identite.mk (some "dupont".data)
       (some "marie".data) none) }
     (Snapshot.Identite.mk (some "dupont".data) (some "marie".data) none) rfl,
   C4_slot_monotonicity.2.2.2.2.2.2.2.2.2.2 ["je mappelle Zoe".data]
     { nom := some "Jean".data } "Jean".data rfl (by decide)⟩


namespace Server

theorem getConv_none_eq (now : Nat) (db : DB) (id : List Char)
    (h : lookupA db.conversations id = none) :
    getConv now db id =
      (freshConv now,
       { db with conversations := (insertA db.conversations id (freshConv now)) }) := by
  simp [getConv, h]

theorem processedTruthy_lookup (l : List (List Char × Nat)) (k : List Char) (v : Nat)
    (h : lookupA l k = some v) (hv : v ≠ 0) : processedTruthy l k = true := by
  simp [processedTruthy, h, hv]

end Server

/-- C3: webhook processing is idempotent in the inbound `messageId`.
For a well-formed unseen message on a fresh conversation, the first
submission succeeds, and a second submission of the same `messageId`
stops at the dedupe gate: it returns the store unchanged (saving it
untouched), makes no model call and no delivery, so across both
submissions the conversation holds exactly one appended user turn and
exactly one outbound delivery attempt is made. -/
theorem C3_webhook_idempotent (now now2 : Nat) (db0 : Server.DB) (inb : Server.Inbound)
    (gen sum gen2 sum2 : Option (List Char))
    (hs : inb.sender.isEmpty = false) (ht : (jsTrim inb.text).isEmpty = false)
    (hp : (jsTrim inb.phoneNumberId).isEmpty = false)
    (hm : inb.messageId.isEmpty = false)
    (hnew : Server.processedTruthy db0.processed inb.messageId = false)
    (hnow : now ≠ 0)
    (hfresh : Server.lookupA db0.conversations (Server.convKey inb) = none) :
    (Server.webhookStep now db0 inb gen sum).2.2 = Server.Wres.ok ∧
    Server.webhookStep now2 (Server.webhookStep now db0 inb gen sum).1 inb gen2 sum2 =
      ((Server.webhookStep now db0 inb gen sum).1,
       [Server.Ev.save (Server.webhookStep now db0 inb gen sum).1],
       Server.Wres.duplicate) ∧
    Server.countSends ((Server.webhookStep now db0 inb gen sum).2.1 ++
      (Server.webhookStep now2 (Server.webhookStep now db0 inb gen sum).1 inb
        gen2 sum2).2.1) = 1 ∧
    Server.countModelCalls
      (Server.webhookStep now2 (Server.webhookStep now db0 inb gen sum).1 inb
        gen2 sum2).2.1 = 0 ∧
    ∃ conv,
      Server.lookupA (Server.webhookStep now db0 inb gen sum).1.conversations
        (Server.convKey inb) = some conv ∧
      Server.countUserTurns conv.history = 1 ∧
      Server.lookupA (Server.webhookStep now2 (Server.webhookStep now db0 inb gen sum).1
        inb gen2 sum2).1.conversations (Server.convKey inb) = some conv := by
  obtain ⟨db2, conv0, hg, heq⟩ := Server.webhookStep_ok now db0 inb gen sum hs ht hp hm hnew
  have hg2 := Server.getConv_none_eq now
    { db0 with processed := (Server.pruneProcessed now
        (Server.insertA db0.processed inb.messageId now)) }
    (Server.convKey inb) hfresh
  rw [hg] at hg2
  have hconv0 : conv0 = Server.freshConv now := congrArg Prod.fst hg2
  have hdb2p : db2.processed =
      Server.pruneProcessed now (Server.insertA db0.processed inb.messageId now) := by
    have h2 := Server.getConv_processed now
      { db0 with processed := (Server.pruneProcessed now
          (Server.insertA db0.processed inb.messageId now)) }
      (Server.convKey inb)
    rw [hg] at h2
    exact h2
  have hdup : Server.processedTruthy
      ({ db2 with conversations := (Server.insertA db2.conversations (Server.convKey inb)
        ((Server.applyTurn now (jsTrim inb.text) gen sum conv0).1)) } : Server.DB).processed
      inb.messageId = true := by
    apply Server.processedTruthy_lookup _ _ now _ hnow
    show Server.lookupA db2.processed inb.messageId = some now
    rw [hdb2p]
    exact Server.recorded_lookup now db0.processed inb.messageId
  have hdupeq := Server.webhookStep_dup now2
    { db2 with conversations := (Server.insertA db2.conversations (Server.convKey inb)
      ((Server.applyTurn now (jsTrim inb.text) gen sum conv0).1)) }
    inb gen2 sum2 hs ht hp hm hdup
  rw [heq]
  refine ⟨rfl, hdupeq, ?_, ?_, ?_⟩
  · rw [hdupeq]
    simp [Server.countSends]
  · rw [hdupeq]
    simp [Server.countModelCalls]
  · refine ⟨(Server.applyTurn now (jsTrim inb.text) gen sum conv0).1,
      Server.lookupA_insertA_self _ _ _, ?_, ?_⟩
    · rw [hconv0, Server.applyTurn_history_short now (jsTrim inb.text) gen sum
        (Server.freshConv now) (by simp [Server.freshConv, Server.MAX_TURNS])]
      simp [Server.countUserTurns, Server.freshConv]
    · rw [hdupeq]
      exact Server.lookupA_insertA_self _ _ _

/-- C3 witness: the idempotence statement evaluated on the sample
message `m` against an empty store. -/
theorem C3_webhook_idempotent_witness :
    Server.processedTruthy (Server.DB.mk [] [] []).processed
      Server.sampleInbound.messageId = false ∧
    (Server.webhookStep 5 (Server.DB.mk [] [] []) Server.sampleInbound
      Server.sampleGen none).2.2 = Server.Wres.ok ∧
    Server.webhookStep 6 (Server.webhookStep 5 (Server.DB.mk [] [] [])
        Server.sampleInbound Server.sampleGen none).1 Server.sampleInbound none none =
      ((Server.webhookStep 5 (Server.DB.mk [] [] []) Server.sampleInbound
          Server.sampleGen none).1,
       [Server.Ev.save (Server.webhookStep 5 (Server.DB.mk [] [] [])
          Server.sampleInbound Server.sampleGen none).1],
       Server.Wres.duplicate) ∧
    Server.countSends ((Server.webhookStep 5 (Server.DB.mk [] [] [])
        Server.sampleInbound Server.sampleGen none).2.1 ++
      (Server.webhookStep 6 (Server.webhookStep 5 (Server.DB.mk [] [] [])
        Server.sampleInbound Server.sampleGen none).1 Server.sampleInbound
        none none).2.1) = 1 ∧
    Server.countModelCalls (Server.webhookStep 6 (Server.webhookStep 5
      (Server.DB.mk [] [] []) Server.sampleInbound Server.sampleGen none).1
      Server.sampleInbound none none).2.1 = 0 ∧
    ∃ conv,
      Server.lookupA (Server.webhookStep 5 (Server.DB.mk [] [] [])
        Server.sampleInbound Server.sampleGen none).1.conversations
        (Server.convKey Server.sampleInbound) = some conv ∧
      Server.countUserTurns conv.history = 1 ∧
      Server.lookupA (Server.webhookStep 6 (Server.webhookStep 5 (Server.DB.mk [] [] [])
        Server.sampleInbound Server.sampleGen none).1 Server.sampleInbound
        none none).1.conversations (Server.convKey Server.sampleInbound) = some conv :=
  ⟨by decide,
   C3_webhook_idempotent 5 6 (Server.DB.mk [] [] []) Server.sampleInbound
     Server.sampleGen none none none (by decide) (by decide) (by decide) (by decide)
     (by decide) (by decide) (by decide)⟩

/-- C7: persistence is write-through and ordered before delivery.  On
every successfully processed turn the event trace is exactly one
generation call, one summary call, one full-store save, and then one
delivery attempt — and the saved store already contains the dedupe
mark for the inbound `messageId` and the mutated conversation record
(ending in the assistant reply that is delivered). -/
theorem C7_persist_before_send (now : Nat) (db0 : Server.DB) (inb : Server.Inbound)
    (gen sum : Option (List Char))
    (hs : inb.sender.isEmpty = false) (ht : (jsTrim inb.text).isEmpty = false)
    (hp : (jsTrim inb.phoneNumberId).isEmpty = false)
    (hm : inb.messageId.isEmpty = false)
    (hnew : Server.processedTruthy db0.processed inb.messageId = false) :
    ∃ dbS conv,
      Server.webhookStep now db0 inb gen sum =
        (dbS, [Server.Ev.genCall, Server.Ev.sumCall, Server.Ev.save dbS,
          Server.Ev.send (Server.enforceStructure (Server.genReply gen))],
         Server.Wres.ok) ∧
      Server.lookupA dbS.processed inb.messageId = some now ∧
      Server.lookupA dbS.conversations (Server.convKey inb) = some conv ∧
      conv.history.getLast? =
        some (Server.Turn.mk Server.Role.assistant
          (Server.enforceStructure (Server.genReply gen))) := by
  obtain ⟨db2, conv0, hg, heq⟩ := Server.webhookStep_ok now db0 inb gen sum hs ht hp hm hnew
  rw [Server.applyTurn_reply] at heq
  have hdb2 : db2.processed =
      Server.pruneProcessed now (Server.insertA db0.processed inb.messageId now) := by
    have h2 := Server.getConv_processed now
      { db0 with processed := (Server.pruneProcessed now
          (Server.insertA db0.processed inb.messageId now)) }
      (Server.convKey inb)
    rw [hg] at h2
    exact h2
  refine ⟨{ db2 with conversations := (Server.insertA db2.conversations (Server.convKey inb)
      ((Server.applyTurn now (jsTrim inb.text) gen sum conv0).1)) },
    (Server.applyTurn now (jsTrim inb.text) gen sum conv0).1, heq, ?_, ?_, ?_⟩
  · show Server.lookupA db2.processed inb.messageId = some now
    rw [hdb2]
    exact Server.recorded_lookup now db0.processed inb.messageId
  · exact Server.lookupA_insertA_self _ _ _
  · exact Server.applyTurn_last _ _ _ _ _

/-- C7 witness: the trace of the sample turn is `[generation call,
summary call, save, send]`, with the saved store carrying the dedupe
mark and the mutated conversation. -/
theorem C7_persist_before_send_witness :
    Server.processedTruthy (Server.DB.mk [] [] []).processed
      Server.sampleInbound.messageId = false ∧
    ∃ dbS conv,
      Server.webhookStep 5 (Server.DB.mk [] [] []) Server.sampleInbound
          Server.sampleGen none =
        (dbS, [Server.Ev.genCall, Server.Ev.sumCall, Server.Ev.save dbS,
          Server.Ev.send (Server.enforceStructure (Server.genReply Server.sampleGen))],
         Server.Wres.ok) ∧
      Server.lookupA dbS.processed Server.sampleInbound.messageId = some 5 ∧
      Server.lookupA dbS.conversations (Server.convKey Server.sampleInbound) = some conv ∧
      conv.history.getLast? =
        some (Server.Turn.mk Server.Role.assistant
          (Server.enforceStructure (Server.genReply Server.sampleGen))) :=
  ⟨by decide,
   C7_persist_before_send 5 (Server.DB.mk [] [] []) Server.sampleInbound
     Server.sampleGen none (by decide) (by decide) (by decide) (by decide) (by decide)⟩

/-- C10 (implicit): the orchestrator truncates every generated reply
to at most its first three sentences — after flattening newline runs
and splitting at whitespace preceded by `.`, `?` or `!` — before the
reply is appended to history, persisted, and delivered:
`enforceStructure` keeps only a prefix of at most three of the
non-empty sentence pieces (so re-splitting its output also yields at
most three non-empty pieces), and on every successful turn the
delivered text, the persisted assistant turn, and the saved record all
carry `enforceStructure` of the raw model reply. -/
theorem C10_reply_three_sentences (now : Nat) (db0 : Server.DB) (inb : Server.Inbound)
    (gen sum : Option (List Char))
    (hs : inb.sender.isEmpty = false) (ht : (jsTrim inb.text).isEmpty = false)
    (hp : (jsTrim inb.phoneNumberId).isEmpty = false)
    (hm : inb.messageId.isEmpty = false)
    (hnew : Server.processedTruthy db0.processed inb.messageId = false) :
    (∀ out : List Char,
      Server.enforceStructure out =
        List.intercalate [' ']
          (((Server.splitSentences (Server.flattenNl out)).filter
            (fun p => !p.isEmpty)).take 3) ∧
      (((Server.splitSentences (Server.flattenNl out)).filter
        (fun p => !p.isEmpty)).take 3).length ≤ 3 ∧
      ((Server.splitSentences (Server.flattenNl out)).filter
        (fun p => !p.isEmpty)).take 3 <+:
        (Server.splitSentences (Server.flattenNl out)).filter (fun p => !p.isEmpty) ∧
      ((Server.splitSentences (Server.enforceStructure out)).filter
        (fun p => !p.isEmpty)).length ≤ 3) ∧
    ∃ dbS conv,
      Server.webhookStep now db0 inb gen sum =
        (dbS, [Server.Ev.genCall, Server.Ev.sumCall, Server.Ev.save dbS,
          Server.Ev.send (Server.enforceStructure (Server.genReply gen))],
         Server.Wres.ok) ∧
      Server.lookupA dbS.conversations (Server.convKey inb) = some conv ∧
      conv.history.getLast? =
        some (Server.Turn.mk Server.Role.assistant
          (Server.enforceStructure (Server.genReply gen))) := by
  constructor
  · intro out
    exact ⟨rfl, List.length_take_le 3 _, List.take_prefix 3 _,
      Server.enforce_resplit_le out⟩
  · obtain ⟨db2, conv0, hg, heq⟩ :=
      Server.webhookStep_ok now db0 inb gen sum hs ht hp hm hnew
    rw [Server.applyTurn_reply] at heq
    exact ⟨{ db2 with conversations := (Server.insertA db2.conversations
        (Server.convKey inb) ((Server.applyTurn now (jsTrim inb.text) gen sum conv0).1)) },
      (Server.applyTurn now (jsTrim inb.text) gen sum conv0).1, heq,
      Server.lookupA_insertA_self _ _ _, Server.applyTurn_last _ _ _ _ _⟩

/-- C10 witness: the sample four-sentence model reply is delivered and
persisted truncated to its first three sentences. -/
theorem C10_reply_three_sentences_witness :
    (Server.enforceStructure "Un. Deux. Trois. Quatre.".data =
      List.intercalate [' ']
        (((Server.splitSentences (Server.flattenNl "Un. Deux. Trois. Quatre.".data)).filter
          (fun p => !p.isEmpty)).take 3) ∧
     (((Server.splitSentences (Server.flattenNl "Un. Deux. Trois. Quatre.".data)).filter
       (fun p => !p.isEmpty)).take 3).length ≤ 3 ∧
     ((Server.splitSentences (Server.flattenNl "Un. Deux. Trois. Quatre.".data)).filter
       (fun p => !p.isEmpty)).take 3 <+:
       (Server.splitSentences (Server.flattenNl "Un. Deux. Trois. Quatre.".data)).filter
         (fun p => !p.isEmpty) ∧
     ((Server.splitSentences
        (Server.enforceStructure "Un. Deux. Trois. Quatre.".data)).filter
       (fun p => !p.isEmpty)).length ≤ 3) ∧
    Server.enforceStructure "Un. Deux. Trois. Quatre.".data = "Un. Deux. Trois.".data ∧
    ∃ dbS conv,
      Server.webhookStep 5 (Server.DB.mk [] [] []) Server.sampleInbound
          Server.sampleGen none =
        (dbS, [Server.Ev.genCall, Server.Ev.sumCall, Server.Ev.save dbS,
          Server.Ev.send (Server.enforceStructure (Server.genReply Server.sampleGen))],
         Server.Wres.ok) ∧
      Server.lookupA dbS.conversations (Server.convKey Server.sampleInbound) = some conv ∧
      conv.history.getLast? =
        some (Server.Turn.mk Server.Role.assistant
          (Server.enforceStructure (Server.genReply Server.sampleGen))) :=
  ⟨(C10_reply_three_sentences 5 (Server.DB.mk [] [] []) Server.sampleInbound
      Server.sampleGen none (by decide) (by decide) (by decide) (by decide)
      (by decide)).1 "Un. Deux. Trois. Quatre.".data,
   by decide,
   (C10_reply_three_sentences 5 (Server.DB.mk [] [] []) Server.sampleInbound
      Server.sampleGen none (by decide) (by decide) (by decide) (by decide)
      (by decide)).2⟩

end BeautyAgent
